import Mathlib

set_option maxRecDepth 4000

/-!
Verification of the `fast-float-to-integer` crate: fast float-to-integer
conversions whose result matches the standard saturating `as` cast on every
in-range input and is an unspecified but valid value of the output type on
every out-of-range input.

The development shallowly embeds the crate's source:

* IEEE-754 binary floating-point values are modelled exactly as
  sign/mantissa/exponent triples (`Fp`), with formats `fmt32`/`fmt64` for
  `f32`/`f64`.  Float subtraction and addition are exact-difference followed
  by round-to-nearest-even (`roundDyadic`), the IEEE-754 default rounding.
* Machine integers (`i64`, `u32`, ...) are `Int` values together with
  explicit two's-complement operations: `wrapU`/`wrapS` for the `as`
  integer casts, `bor`/`band` for bitwise or/and on a `w`-bit signed
  integer, and `Int.shiftRight` (`>>>`) for the arithmetic right shift.
* The hardware truncation instruction (CVTTSS2SI / CVTTSD2SI) wrapped by the
  `core::arch` intrinsics is modelled by `cvtt`.
* Each conversion backend (`target_x86_64_sse`, `target_x86_sse`,
  `target_default`) is a namespace of definitions mirroring the functions of
  the corresponding source file, and the public crate functions
  (`fast_float_to_integer.*`) dispatch over the compile-time chosen backend
  (`Target`), mirroring `lib.rs`.
-/

/-- Truncation toward zero of a rational number, as an integer. -/
def truncQ (q : ℚ) : Int := if 0 ≤ q then ⌊q⌋ else ⌈q⌉

/-- An IEEE-754 binary format: `prec` bits of significand (including the
implicit bit) and maximal exponent `emax`.  `f32` is `prec = 24, emax = 127`;
`f64` is `prec = 53, emax = 1023`. -/
structure FloatFormat where
  prec : Nat
  emax : Int
deriving DecidableEq

/-- Least exponent of the integral-significand representation
(`-149` for `f32`, `-1074` for `f64`). -/
def FloatFormat.eminM (fmt : FloatFormat) : Int :=
  1 - fmt.emax - ((fmt.prec : Int) - 1)

/-- Greatest exponent of the integral-significand representation
(`104` for `f32`, `971` for `f64`). -/
def FloatFormat.emaxM (fmt : FloatFormat) : Int :=
  fmt.emax - ((fmt.prec : Int) - 1)

/-- The `f32` format. -/
def fmt32 : FloatFormat := { prec := 24, emax := 127 }

/-- The `f64` format. -/
def fmt64 : FloatFormat := { prec := 53, emax := 1023 }

/-- A floating-point datum: NaN, a signed infinity, or a finite value
`(-1)^neg * m * 2^e` given by an integral significand and an exponent.
(All NaN payloads behave identically in every operation modelled here, so a
single `nan` constructor represents them.) -/
inductive Fp
  | nan
  | inf (neg : Bool)
  | finite (neg : Bool) (m : Nat) (e : Int)
deriving DecidableEq

/-- Signed significand. -/
def sval (neg : Bool) (m : Nat) : Int := cond neg (-(m : Int)) (m : Int)

/-- Whether the datum is finite. -/
def Fp.isFinite : Fp → Bool
  | .finite _ _ _ => true
  | _ => false

/-- A finite datum is well formed for a format when its significand has at
most `prec` bits and its exponent is in the representable range.  NaN and the
infinities are always well formed. -/
def Fp.valid (fmt : FloatFormat) : Fp → Bool
  | .finite _ m e => decide (m < 2^fmt.prec) && decide (fmt.eminM ≤ e) && decide (e ≤ fmt.emaxM)
  | _ => true

/-- Exact rational value of a finite datum (junk value `0` on NaN and the
infinities; used only underneath `isFinite`). -/
def Fp.toVal : Fp → ℚ
  | .finite s m e => ((sval s m : Int) : ℚ) * (2:ℚ)^e
  | _ => 0

/-- Truncation toward zero of a finite datum, computed on the significand.
Junk value `0` on NaN and the infinities. -/
def Fp.truncInt : Fp → Int
  | .finite s m e =>
      let mag : Nat := if 0 ≤ e then m * 2^e.toNat else m / 2^(-e).toNat
      cond s (-(mag : Int)) (mag : Int)
  | _ => 0

/-- Bit length of a natural number, by fuel recursion so that it reduces in
the kernel (`Nat.log2` is defined by well-founded recursion and does not). -/
def bitlenAux : Nat → Nat → Nat
  | 0, _ => 0
  | fuel+1, n => if n = 0 then 0 else bitlenAux fuel (n / 2) + 1

/-- Bit length: `bitlen 0 = 0` and `2^(bitlen n - 1) ≤ n < 2^(bitlen n)` for
`n ≠ 0`. -/
def bitlen (n : Nat) : Nat := bitlenAux n n

/-- Build a finite datum, overflowing to infinity when the exponent exceeds
the format's range (IEEE-754 overflow to infinity under round to nearest). -/
def fpChecked (fmt : FloatFormat) (s : Bool) (m : Nat) (e : Int) : Fp :=
  if fmt.emaxM < e then Fp.inf s else Fp.finite s m e

/-- Round the dyadic rational `M * 2^E` to a float of format `fmt` with the
IEEE-754 default rounding, round to nearest with ties to even. -/
def roundDyadic (fmt : FloatFormat) (M : Int) (E : Int) : Fp :=
  if M = 0 then Fp.finite false 0 0
  else
    let s := decide (M < 0)
    let A := M.natAbs
    let bl : Int := bitlen A
    let et := max fmt.eminM (E + bl - fmt.prec)
    if et ≤ E then
      fpChecked fmt s (A * 2^(E - et).toNat) et
    else
      let sh := (et - E).toNat
      let q := A >>> sh
      let r := A % 2^sh
      let half := 2^(sh-1)
      let m := if half < r ∨ (r = half ∧ q % 2 = 1) then q + 1 else q
      if m = 2^fmt.prec then fpChecked fmt s (2^(fmt.prec - 1)) (et + 1)
      else fpChecked fmt s m et

/-- Conversion of an integer to a float of format `fmt` (Rust's `as` cast
from an integer type to a float type: round to nearest, ties to even). -/
def ofIntF (fmt : FloatFormat) (n : Int) : Fp := roundDyadic fmt n 0

/-- Negation of a float. -/
def Fp.fneg : Fp → Fp
  | .nan => .nan
  | .inf s => .inf (!s)
  | .finite s m e => .finite (!s) m e

/-- IEEE-754 subtraction in format `fmt` under the default rounding: NaN and
infinity handling, exact difference of finite values, then
round to nearest, ties to even.  An exact zero result is `+0` except for
`(-0) - (+0) = -0`. -/
def Fp.fsub (fmt : FloatFormat) : Fp → Fp → Fp
  | .nan, _ => .nan
  | .inf _, .nan => .nan
  | .finite _ _ _, .nan => .nan
  | .inf sx, .inf sy => if sx = sy then .nan else .inf sx
  | .inf sx, .finite _ _ _ => .inf sx
  | .finite _ _ _, .inf sy => .inf (!sy)
  | .finite sx mx ex, .finite sy my ey =>
      let E := min ex ey
      let M := sval sx mx * 2^(ex - E).toNat - sval sy my * 2^(ey - E).toNat
      if M = 0 then .finite (sx && !sy) 0 0
      else roundDyadic fmt M E

/-- IEEE-754 addition, via subtraction of the negated second operand (an
identity of IEEE-754 arithmetic, signed zeros included). -/
def Fp.fadd (fmt : FloatFormat) (x y : Fp) : Fp := Fp.fsub fmt x (Fp.fneg y)

/-- The `<=` comparison on floats: false whenever an operand is NaN,
otherwise the value order with `-inf` at the bottom and `+inf` at the top
(`-0` and `+0` compare equal). -/
def Fp.fle : Fp → Fp → Bool
  | .nan, _ => false
  | .inf _, .nan => false
  | .finite _ _ _, .nan => false
  | .inf true, _ => true
  | .inf false, .inf false => true
  | .inf false, _ => false
  | .finite _ _ _, .inf false => true
  | .finite _ _ _, .inf true => false
  | .finite sx mx ex, .finite sy my ey =>
      let E := min ex ey
      decide (sval sx mx * 2^(ex - E).toNat ≤ sval sy my * 2^(ey - E).toNat)

/-- Smallest value of a `w`-bit signed integer type. -/
def iMin (w : Nat) : Int := -(2^(w-1))

/-- Largest value of a `w`-bit signed integer type. -/
def iMax (w : Nat) : Int := 2^(w-1) - 1

/-- Largest value of a `w`-bit unsigned integer type. -/
def uMax (w : Nat) : Int := 2^w - 1

/-- The spec's range predicate (§3): a float is in range of an integer type
iff it is finite and its truncation toward zero lies in `[lo, hi]`. -/
def InRange (lo hi : Int) (float : Fp) : Prop :=
  float.isFinite = true ∧ lo ≤ float.truncInt ∧ float.truncInt ≤ hi

instance (lo hi : Int) (float : Fp) : Decidable (InRange lo hi float) := by
  unfold InRange
  infer_instance

/-- Modelled from the spec: the `core::arch` intrinsics `_mm_cvttss_si64`,
`_mm_cvttsd_si64`, `_mm_cvttss_si32` and `_mm_cvttsd_si32` are not part of
`src/`; their semantics — the CVTTSS2SI/CVTTSD2SI instructions — are modelled
from the source's own doc comment ("If the input f32 is out of range of the
output i64, then the result is i64::MIN") and §4.1 of the spec: truncation
toward zero when that truncation fits the `w`-bit signed range, and the
sentinel `iMin w` for every other input (too large, too small, infinite or
NaN). -/
def cvtt (w : Nat) (float : Fp) : Int :=
  match float with
  | .finite s m e =>
      let v := (Fp.finite s m e).truncInt
      if v < iMin w ∨ iMax w < v then iMin w else v
  | _ => iMin w

/-- Rust's `as` cast from a wider signed integer to a `w`-bit unsigned
integer (also `iW as uW` reinterpretation): the value modulo `2^w`. -/
def wrapU (w : Nat) (v : Int) : Int := v % (2^w : Int)

/-- Rust's `as` cast from a wider signed integer to a `w`-bit signed
integer: two's-complement truncation to the low `w` bits. -/
def wrapS (w : Nat) (v : Int) : Int := (v + 2^(w-1)) % (2^w : Int) - 2^(w-1)

/-- Two's-complement bit pattern of a `w`-bit machine integer value. -/
def toBits (w : Nat) (v : Int) : Nat := (v % (2^w : Int)).toNat

/-- Signed value of a `w`-bit two's-complement bit pattern. -/
def ofBitsS (w : Nat) (p : Nat) : Int :=
  if p < 2^(w-1) then (p : Int) else (p : Int) - 2^w

/-- Rust's `|` on a `w`-bit signed integer type. -/
def bor (w : Nat) (a b : Int) : Int := ofBitsS w (toBits w a ||| toBits w b)

/-- Rust's `&` on a `w`-bit signed integer type. -/
def band (w : Nat) (a b : Int) : Int := ofBitsS w (toBits w a &&& toBits w b)

/-- The mask `integer1 >> (w-1)` of the branchless algorithm: Rust's `>>` on
a signed integer is the arithmetic (sign-extending) right shift, which is
`Int.shiftRight`. -/
def too_large_mask (w : Nat) (integer1 : Int) : Int := integer1 >>> (w-1)

/-- Rust's `as` cast from a float to an integer type with range `[lo, hi]`:
NaN to `0`, otherwise the truncation toward zero clamped to the range
(the standard saturating cast). -/
def rustCast (lo hi : Int) (float : Fp) : Int :=
  match float with
  | .nan => 0
  | .inf s => cond s lo hi
  | .finite _ _ _ => max lo (min hi float.truncInt)

/-- Follows the spec's words (§Glossary "Saturating cast", §3): out-of-range
inputs clamp to the destination type's minimum or maximum value, NaN converts
to zero.  Stated independently of `rustCast` so the source-side model can be
compared against the spec's description. -/
def spec_saturating_cast (lo hi : Int) (float : Fp) : Int :=
  if float = .nan then 0
  else if float = .inf true then lo
  else if float = .inf false then hi
  else if float.truncInt < lo then lo
  else if hi < float.truncInt then hi
  else float.truncInt

/-- `lib.rs`: `power_of_two_f32`, i.e. `(2u128).pow(exponent) as f32`. -/
def power_of_two_f32 (exponent : Nat) : Fp := ofIntF fmt32 ((2:Int)^exponent)

/-- `lib.rs`: `power_of_two_f64`, i.e. `(2u128).pow(exponent) as f64`. -/
def power_of_two_f64 (exponent : Nat) : Fp := ofIntF fmt64 ((2:Int)^exponent)

namespace target_x86_64_sse

/-- `target_x86_64_sse.rs` `f32_to_i64`: convert f32 to i64 using the
CVTTSS2SI instruction (via `_mm_loadu_ps` and `_mm_cvttss_si64`); out-of-range
inputs give `i64::MIN`. -/
def f32_to_i64 (float : Fp) : Int := cvtt 64 float

/-- `target_x86_64_sse.rs` `_f32_to_u64_branchful`: branching reference
implementation of the f32 to u64 conversion.  `integer.overflowing_add`
on `u64` is addition modulo `2^64`. -/
def _f32_to_u64_branchful (float : Fp) : Int :=
  let THRESHOLD_FLOAT := power_of_two_f32 63
  let THRESHOLD_INTEGER : Int := 2^63
  let in_range := float.fle THRESHOLD_FLOAT
  if in_range then wrapU 64 (f32_to_i64 float)
  else
    let in_range_float := Fp.fsub fmt32 float THRESHOLD_FLOAT
    let integer := wrapU 64 (f32_to_i64 in_range_float)
    (integer + THRESHOLD_INTEGER) % (2^64 : Int)

/-- `target_x86_64_sse.rs` `f32_to_u64_branchless`: the branchless f32 to u64
conversion. -/
def f32_to_u64_branchless (float : Fp) : Int :=
  let THRESHOLD := power_of_two_f32 63
  let integer1 := f32_to_i64 float
  let integer2 := f32_to_i64 (Fp.fsub fmt32 float THRESHOLD)
  let too_large := too_large_mask 64 integer1
  wrapU 64 (bor 64 integer1 (band 64 integer2 too_large))

/-- `target_x86_64_sse.rs` `f32_to_u64`. -/
def f32_to_u64 (float : Fp) : Int := f32_to_u64_branchless float

/-- `target_x86_64_sse.rs` `f64_to_i64` (CVTTSD2SI via `_mm_cvttsd_si64`). -/
def f64_to_i64 (float : Fp) : Int := cvtt 64 float

/-- `target_x86_64_sse.rs` `f64_to_u64`: the branchless f64 to u64
conversion. -/
def f64_to_u64 (float : Fp) : Int :=
  let THRESHOLD := power_of_two_f64 63
  let integer1 := f64_to_i64 float
  let integer2 := f64_to_i64 (Fp.fsub fmt64 float THRESHOLD)
  let too_large := too_large_mask 64 integer1
  wrapU 64 (bor 64 integer1 (band 64 integer2 too_large))

namespace implementation

/-- `target_x86_64_sse.rs` `implementation::f32_to_i8`. -/
def f32_to_i8 (float : Fp) : Int := wrapS 8 (target_x86_64_sse.f32_to_i64 float)

/-- `target_x86_64_sse.rs` `implementation::f32_to_u8`. -/
def f32_to_u8 (float : Fp) : Int := wrapU 8 (target_x86_64_sse.f32_to_i64 float)

/-- `target_x86_64_sse.rs` `implementation::f32_to_i16`. -/
def f32_to_i16 (float : Fp) : Int := wrapS 16 (target_x86_64_sse.f32_to_i64 float)

/-- `target_x86_64_sse.rs` `implementation::f32_to_u16`. -/
def f32_to_u16 (float : Fp) : Int := wrapU 16 (target_x86_64_sse.f32_to_i64 float)

/-- `target_x86_64_sse.rs` `implementation::f32_to_i32`. -/
def f32_to_i32 (float : Fp) : Int := wrapS 32 (target_x86_64_sse.f32_to_i64 float)

/-- `target_x86_64_sse.rs` `implementation::f32_to_u32`. -/
def f32_to_u32 (float : Fp) : Int := wrapU 32 (target_x86_64_sse.f32_to_i64 float)

/-- `target_x86_64_sse.rs` `implementation::f32_to_i64` (`as i64` on an `i64`
is the identity). -/
def f32_to_i64 (float : Fp) : Int := target_x86_64_sse.f32_to_i64 float

/-- `target_x86_64_sse.rs` `implementation::f32_to_u64` (`as u64` on a `u64`
is the identity). -/
def f32_to_u64 (float : Fp) : Int := target_x86_64_sse.f32_to_u64 float

/-- `target_x86_64_sse.rs` `implementation::f32_to_i128`: `float as i128`. -/
def f32_to_i128 (float : Fp) : Int := rustCast (iMin 128) (iMax 128) float

/-- `target_x86_64_sse.rs` `implementation::f32_to_u128`: `float as u128`. -/
def f32_to_u128 (float : Fp) : Int := rustCast 0 (uMax 128) float

/-- `target_x86_64_sse.rs` `implementation::f64_to_i8`. -/
def f64_to_i8 (float : Fp) : Int := wrapS 8 (target_x86_64_sse.f64_to_i64 float)

/-- `target_x86_64_sse.rs` `implementation::f64_to_u8`. -/
def f64_to_u8 (float : Fp) : Int := wrapU 8 (target_x86_64_sse.f64_to_i64 float)

/-- `target_x86_64_sse.rs` `implementation::f64_to_i16`. -/
def f64_to_i16 (float : Fp) : Int := wrapS 16 (target_x86_64_sse.f64_to_i64 float)

/-- `target_x86_64_sse.rs` `implementation::f64_to_u16`. -/
def f64_to_u16 (float : Fp) : Int := wrapU 16 (target_x86_64_sse.f64_to_i64 float)

/-- `target_x86_64_sse.rs` `implementation::f64_to_i32`. -/
def f64_to_i32 (float : Fp) : Int := wrapS 32 (target_x86_64_sse.f64_to_i64 float)

/-- `target_x86_64_sse.rs` `implementation::f64_to_u32`. -/
def f64_to_u32 (float : Fp) : Int := wrapU 32 (target_x86_64_sse.f64_to_i64 float)

/-- `target_x86_64_sse.rs` `implementation::f64_to_i64`. -/
def f64_to_i64 (float : Fp) : Int := target_x86_64_sse.f64_to_i64 float

/-- `target_x86_64_sse.rs` `implementation::f64_to_u64`. -/
def f64_to_u64 (float : Fp) : Int := target_x86_64_sse.f64_to_u64 float

/-- `target_x86_64_sse.rs` `implementation::f64_to_i128`: `float as i128`. -/
def f64_to_i128 (float : Fp) : Int := rustCast (iMin 128) (iMax 128) float

/-- `target_x86_64_sse.rs` `implementation::f64_to_u128`: `float as u128`. -/
def f64_to_u128 (float : Fp) : Int := rustCast 0 (uMax 128) float

end implementation

end target_x86_64_sse

namespace target_x86_sse

/-- `target_x86_sse.rs` `f32_to_i32` (CVTTSS2SI with 32-bit output, via
`_mm_cvttss_si32`); out-of-range inputs give `i32::MIN`. -/
def f32_to_i32 (float : Fp) : Int := cvtt 32 float

/-- `target_x86_sse.rs` `f32_to_u32`: the branchless f32 to u32
conversion. -/
def f32_to_u32 (float : Fp) : Int :=
  let THRESHOLD := power_of_two_f32 31
  let integer1 := f32_to_i32 float
  let integer2 := f32_to_i32 (Fp.fsub fmt32 float THRESHOLD)
  let too_large := too_large_mask 32 integer1
  wrapU 32 (bor 32 integer1 (band 32 integer2 too_large))

/-- `target_x86_sse.rs` `f64_to_i32` (CVTTSD2SI with 32-bit output, via
`_mm_cvttsd_si32`). -/
def f64_to_i32 (float : Fp) : Int := cvtt 32 float

/-- `target_x86_sse.rs` `f64_to_u32`: the branchless f64 to u32
conversion. -/
def f64_to_u32 (float : Fp) : Int :=
  let THRESHOLD := power_of_two_f64 31
  let integer1 := f64_to_i32 float
  let integer2 := f64_to_i32 (Fp.fsub fmt64 float THRESHOLD)
  let too_large := too_large_mask 32 integer1
  wrapU 32 (bor 32 integer1 (band 32 integer2 too_large))

namespace implementation

/-- `target_x86_sse.rs` `implementation::f32_to_i8`. -/
def f32_to_i8 (float : Fp) : Int := wrapS 8 (target_x86_sse.f32_to_i32 float)

/-- `target_x86_sse.rs` `implementation::f32_to_u8`. -/
def f32_to_u8 (float : Fp) : Int := wrapU 8 (target_x86_sse.f32_to_i32 float)

/-- `target_x86_sse.rs` `implementation::f32_to_i16`. -/
def f32_to_i16 (float : Fp) : Int := wrapS 16 (target_x86_sse.f32_to_i32 float)

/-- `target_x86_sse.rs` `implementation::f32_to_u16`. -/
def f32_to_u16 (float : Fp) : Int := wrapU 16 (target_x86_sse.f32_to_i32 float)

/-- `target_x86_sse.rs` `implementation::f32_to_i32`. -/
def f32_to_i32 (float : Fp) : Int := target_x86_sse.f32_to_i32 float

/-- `target_x86_sse.rs` `implementation::f32_to_u32`. -/
def f32_to_u32 (float : Fp) : Int := target_x86_sse.f32_to_u32 float

/-- `target_x86_sse.rs` `implementation::f32_to_i64`: `float as i64`. -/
def f32_to_i64 (float : Fp) : Int := rustCast (iMin 64) (iMax 64) float

/-- `target_x86_sse.rs` `implementation::f32_to_u64`: `float as u64`. -/
def f32_to_u64 (float : Fp) : Int := rustCast 0 (uMax 64) float

/-- `target_x86_sse.rs` `implementation::f32_to_i128`: `float as i128`. -/
def f32_to_i128 (float : Fp) : Int := rustCast (iMin 128) (iMax 128) float

/-- `target_x86_sse.rs` `implementation::f32_to_u128`: `float as u128`. -/
def f32_to_u128 (float : Fp) : Int := rustCast 0 (uMax 128) float

/-- `target_x86_sse.rs` `implementation::f64_to_i8`. -/
def f64_to_i8 (float : Fp) : Int := wrapS 8 (target_x86_sse.f64_to_i32 float)

/-- `target_x86_sse.rs` `implementation::f64_to_u8`. -/
def f64_to_u8 (float : Fp) : Int := wrapU 8 (target_x86_sse.f64_to_i32 float)

/-- `target_x86_sse.rs` `implementation::f64_to_i16`. -/
def f64_to_i16 (float : Fp) : Int := wrapS 16 (target_x86_sse.f64_to_i32 float)

/-- `target_x86_sse.rs` `implementation::f64_to_u16`. -/
def f64_to_u16 (float : Fp) : Int := wrapU 16 (target_x86_sse.f64_to_i32 float)

/-- `target_x86_sse.rs` `implementation::f64_to_i32`. -/
def f64_to_i32 (float : Fp) : Int := target_x86_sse.f64_to_i32 float

/-- `target_x86_sse.rs` `implementation::f64_to_u32`. -/
def f64_to_u32 (float : Fp) : Int := target_x86_sse.f64_to_u32 float

/-- `target_x86_sse.rs` `implementation::f64_to_i64`: `float as i64`. -/
def f64_to_i64 (float : Fp) : Int := rustCast (iMin 64) (iMax 64) float

/-- `target_x86_sse.rs` `implementation::f64_to_u64`: `float as u64`. -/
def f64_to_u64 (float : Fp) : Int := rustCast 0 (uMax 64) float

/-- `target_x86_sse.rs` `implementation::f64_to_i128`: `float as i128`. -/
def f64_to_i128 (float : Fp) : Int := rustCast (iMin 128) (iMax 128) float

/-- `target_x86_sse.rs` `implementation::f64_to_u128`: `float as u128`. -/
def f64_to_u128 (float : Fp) : Int := rustCast 0 (uMax 128) float

end implementation

end target_x86_sse

namespace target_default

namespace implementation

/-- `target_default.rs` `implementation::f32_to_i8`: `float as i8`. -/
def f32_to_i8 (float : Fp) : Int := rustCast (iMin 8) (iMax 8) float

/-- `target_default.rs` `implementation::f32_to_u8`: `float as u8`. -/
def f32_to_u8 (float : Fp) : Int := rustCast 0 (uMax 8) float

/-- `target_default.rs` `implementation::f32_to_i16`: `float as i16`. -/
def f32_to_i16 (float : Fp) : Int := rustCast (iMin 16) (iMax 16) float

/-- `target_default.rs` `implementation::f32_to_u16`: `float as u16`. -/
def f32_to_u16 (float : Fp) : Int := rustCast 0 (uMax 16) float

/-- `target_default.rs` `implementation::f32_to_i32`: `float as i32`. -/
def f32_to_i32 (float : Fp) : Int := rustCast (iMin 32) (iMax 32) float

/-- `target_default.rs` `implementation::f32_to_u32`: `float as u32`. -/
def f32_to_u32 (float : Fp) : Int := rustCast 0 (uMax 32) float

/-- `target_default.rs` `implementation::f32_to_i64`: `float as i64`. -/
def f32_to_i64 (float : Fp) : Int := rustCast (iMin 64) (iMax 64) float

/-- `target_default.rs` `implementation::f32_to_u64`: `float as u64`. -/
def f32_to_u64 (float : Fp) : Int := rustCast 0 (uMax 64) float

/-- `target_default.rs` `implementation::f32_to_i128`: `float as i128`. -/
def f32_to_i128 (float : Fp) : Int := rustCast (iMin 128) (iMax 128) float

/-- `target_default.rs` `implementation::f32_to_u128`: `float as u128`. -/
def f32_to_u128 (float : Fp) : Int := rustCast 0 (uMax 128) float

/-- `target_default.rs` `implementation::f64_to_i8`: `float as i8`. -/
def f64_to_i8 (float : Fp) : Int := rustCast (iMin 8) (iMax 8) float

/-- `target_default.rs` `implementation::f64_to_u8`: `float as u8`. -/
def f64_to_u8 (float : Fp) : Int := rustCast 0 (uMax 8) float

/-- `target_default.rs` `implementation::f64_to_i16`: `float as i16`. -/
def f64_to_i16 (float : Fp) : Int := rustCast (iMin 16) (iMax 16) float

/-- `target_default.rs` `implementation::f64_to_u16`: `float as u16`. -/
def f64_to_u16 (float : Fp) : Int := rustCast 0 (uMax 16) float

/-- `target_default.rs` `implementation::f64_to_i32`: `float as i32`. -/
def f64_to_i32 (float : Fp) : Int := rustCast (iMin 32) (iMax 32) float

/-- `target_default.rs` `implementation::f64_to_u32`: `float as u32`. -/
def f64_to_u32 (float : Fp) : Int := rustCast 0 (uMax 32) float

/-- `target_default.rs` `implementation::f64_to_i64`: `float as i64`. -/
def f64_to_i64 (float : Fp) : Int := rustCast (iMin 64) (iMax 64) float

/-- `target_default.rs` `implementation::f64_to_u64`: `float as u64`. -/
def f64_to_u64 (float : Fp) : Int := rustCast 0 (uMax 64) float

/-- `target_default.rs` `implementation::f64_to_i128`: `float as i128`. -/
def f64_to_i128 (float : Fp) : Int := rustCast (iMin 128) (iMax 128) float

/-- `target_default.rs` `implementation::f64_to_u128`: `float as u128`. -/
def f64_to_u128 (float : Fp) : Int := rustCast 0 (uMax 128) float

end implementation

end target_default

/-- The compile-time backend choice of `lib.rs` (`cfg_if` over
`force-default`, `x86_64+sse` and `x86+sse`). -/
inductive Target
  | target_x86_64_sse
  | target_x86_sse
  | target_default
deriving DecidableEq

namespace fast_float_to_integer

/-- `lib.rs` public `f32_to_i8`, forwarding to the active backend. -/
def f32_to_i8 (t : Target) (float : Fp) : Int :=
  match t with
  | .target_x86_64_sse => target_x86_64_sse.implementation.f32_to_i8 float
  | .target_x86_sse => target_x86_sse.implementation.f32_to_i8 float
  | .target_default => target_default.implementation.f32_to_i8 float

/-- `lib.rs` public `f32_to_u8`. -/
def f32_to_u8 (t : Target) (float : Fp) : Int :=
  match t with
  | .target_x86_64_sse => target_x86_64_sse.implementation.f32_to_u8 float
  | .target_x86_sse => target_x86_sse.implementation.f32_to_u8 float
  | .target_default => target_default.implementation.f32_to_u8 float

/-- `lib.rs` public `f32_to_i16`. -/
def f32_to_i16 (t : Target) (float : Fp) : Int :=
  match t with
  | .target_x86_64_sse => target_x86_64_sse.implementation.f32_to_i16 float
  | .target_x86_sse => target_x86_sse.implementation.f32_to_i16 float
  | .target_default => target_default.implementation.f32_to_i16 float

/-- `lib.rs` public `f32_to_u16`. -/
def f32_to_u16 (t : Target) (float : Fp) : Int :=
  match t with
  | .target_x86_64_sse => target_x86_64_sse.implementation.f32_to_u16 float
  | .target_x86_sse => target_x86_sse.implementation.f32_to_u16 float
  | .target_default => target_default.implementation.f32_to_u16 float

/-- `lib.rs` public `f32_to_i32`. -/
def f32_to_i32 (t : Target) (float : Fp) : Int :=
  match t with
  | .target_x86_64_sse => target_x86_64_sse.implementation.f32_to_i32 float
  | .target_x86_sse => target_x86_sse.implementation.f32_to_i32 float
  | .target_default => target_default.implementation.f32_to_i32 float

/-- `lib.rs` public `f32_to_u32`. -/
def f32_to_u32 (t : Target) (float : Fp) : Int :=
  match t with
  | .target_x86_64_sse => target_x86_64_sse.implementation.f32_to_u32 float
  | .target_x86_sse => target_x86_sse.implementation.f32_to_u32 float
  | .target_default => target_default.implementation.f32_to_u32 float

/-- `lib.rs` public `f32_to_i64`. -/
def f32_to_i64 (t : Target) (float : Fp) : Int :=
  match t with
  | .target_x86_64_sse => target_x86_64_sse.implementation.f32_to_i64 float
  | .target_x86_sse => target_x86_sse.implementation.f32_to_i64 float
  | .target_default => target_default.implementation.f32_to_i64 float

/-- `lib.rs` public `f32_to_u64`. -/
def f32_to_u64 (t : Target) (float : Fp) : Int :=
  match t with
  | .target_x86_64_sse => target_x86_64_sse.implementation.f32_to_u64 float
  | .target_x86_sse => target_x86_sse.implementation.f32_to_u64 float
  | .target_default => target_default.implementation.f32_to_u64 float

/-- `lib.rs` public `f32_to_i128`. -/
def f32_to_i128 (t : Target) (float : Fp) : Int :=
  match t with
  | .target_x86_64_sse => target_x86_64_sse.implementation.f32_to_i128 float
  | .target_x86_sse => target_x86_sse.implementation.f32_to_i128 float
  | .target_default => target_default.implementation.f32_to_i128 float

/-- `lib.rs` public `f32_to_u128`. -/
def f32_to_u128 (t : Target) (float : Fp) : Int :=
  match t with
  | .target_x86_64_sse => target_x86_64_sse.implementation.f32_to_u128 float
  | .target_x86_sse => target_x86_sse.implementation.f32_to_u128 float
  | .target_default => target_default.implementation.f32_to_u128 float

/-- `lib.rs` public `f64_to_i8`. -/
def f64_to_i8 (t : Target) (float : Fp) : Int :=
  match t with
  | .target_x86_64_sse => target_x86_64_sse.implementation.f64_to_i8 float
  | .target_x86_sse => target_x86_sse.implementation.f64_to_i8 float
  | .target_default => target_default.implementation.f64_to_i8 float

/-- `lib.rs` public `f64_to_u8`. -/
def f64_to_u8 (t : Target) (float : Fp) : Int :=
  match t with
  | .target_x86_64_sse => target_x86_64_sse.implementation.f64_to_u8 float
  | .target_x86_sse => target_x86_sse.implementation.f64_to_u8 float
  | .target_default => target_default.implementation.f64_to_u8 float

/-- `lib.rs` public `f64_to_i16`. -/
def f64_to_i16 (t : Target) (float : Fp) : Int :=
  match t with
  | .target_x86_64_sse => target_x86_64_sse.implementation.f64_to_i16 float
  | .target_x86_sse => target_x86_sse.implementation.f64_to_i16 float
  | .target_default => target_default.implementation.f64_to_i16 float

/-- `lib.rs` public `f64_to_u16`. -/
def f64_to_u16 (t : Target) (float : Fp) : Int :=
  match t with
  | .target_x86_64_sse => target_x86_64_sse.implementation.f64_to_u16 float
  | .target_x86_sse => target_x86_sse.implementation.f64_to_u16 float
  | .target_default => target_default.implementation.f64_to_u16 float

/-- `lib.rs` public `f64_to_i32`. -/
def f64_to_i32 (t : Target) (float : Fp) : Int :=
  match t with
  | .target_x86_64_sse => target_x86_64_sse.implementation.f64_to_i32 float
  | .target_x86_sse => target_x86_sse.implementation.f64_to_i32 float
  | .target_default => target_default.implementation.f64_to_i32 float

/-- `lib.rs` public `f64_to_u32`. -/
def f64_to_u32 (t : Target) (float : Fp) : Int :=
  match t with
  | .target_x86_64_sse => target_x86_64_sse.implementation.f64_to_u32 float
  | .target_x86_sse => target_x86_sse.implementation.f64_to_u32 float
  | .target_default => target_default.implementation.f64_to_u32 float

/-- `lib.rs` public `f64_to_i64`. -/
def f64_to_i64 (t : Target) (float : Fp) : Int :=
  match t with
  | .target_x86_64_sse => target_x86_64_sse.implementation.f64_to_i64 float
  | .target_x86_sse => target_x86_sse.implementation.f64_to_i64 float
  | .target_default => target_default.implementation.f64_to_i64 float

/-- `lib.rs` public `f64_to_u64`. -/
def f64_to_u64 (t : Target) (float : Fp) : Int :=
  match t with
  | .target_x86_64_sse => target_x86_64_sse.implementation.f64_to_u64 float
  | .target_x86_sse => target_x86_sse.implementation.f64_to_u64 float
  | .target_default => target_default.implementation.f64_to_u64 float

/-- `lib.rs` public `f64_to_i128`. -/
def f64_to_i128 (t : Target) (float : Fp) : Int :=
  match t with
  | .target_x86_64_sse => target_x86_64_sse.implementation.f64_to_i128 float
  | .target_x86_sse => target_x86_sse.implementation.f64_to_i128 float
  | .target_default => target_default.implementation.f64_to_i128 float

/-- `lib.rs` public `f64_to_u128`. -/
def f64_to_u128 (t : Target) (float : Fp) : Int :=
  match t with
  | .target_x86_64_sse => target_x86_64_sse.implementation.f64_to_u128 float
  | .target_x86_sse => target_x86_sse.implementation.f64_to_u128 float
  | .target_default => target_default.implementation.f64_to_u128 float

end fast_float_to_integer

/-! ### Basic lemmas about the model -/

theorem bitlenAux_zero (fuel : Nat) : bitlenAux fuel 0 = 0 := by
  cases fuel <;> simp [bitlenAux]

theorem bitlenAux_bounds (fuel : Nat) : ∀ n : Nat, n ≤ fuel →
    n < 2^(bitlenAux fuel n) ∧ (n ≠ 0 → 2^(bitlenAux fuel n - 1) ≤ n) := by
  induction fuel with
  | zero =>
    intro n hn
    have : n = 0 := by omega
    subst this
    simp [bitlenAux]
  | succ fuel ih =>
    intro n hn
    by_cases h0 : n = 0
    · subst h0
      simp [bitlenAux]
    · obtain ⟨hub, hlb⟩ := ih (n / 2) (by omega)
      have hstep : bitlenAux (fuel+1) n = bitlenAux fuel (n / 2) + 1 := by
        simp [bitlenAux, h0]
      rw [hstep]
      set b := bitlenAux fuel (n / 2) with hb
      have hp : (2:Nat)^(b+1) = 2 * 2^b := by rw [pow_succ]; ring
      constructor
      · omega
      · intro _
        by_cases hq : n / 2 = 0
        · have hb0 : b = 0 := by rw [hb, hq, bitlenAux_zero]
          simp only [Nat.add_sub_cancel, hb0, pow_zero]
          omega
        · have h1 := hlb hq
          have hbpos : 1 ≤ b := by
            rcases Nat.eq_zero_or_pos b with h | h
            · rw [h] at hub; omega
            · exact h
          have h2 : (2:Nat)^b = 2 * 2^(b-1) := by
            conv_lhs => rw [← Nat.sub_one_add_one (by omega : b ≠ 0)]
            rw [pow_succ]; ring
          simp only [Nat.add_sub_cancel]
          omega

theorem bitlen_lt (n : Nat) : n < 2^(bitlen n) :=
  (bitlenAux_bounds n n le_rfl).1

theorem bitlen_lb (n : Nat) (h : n ≠ 0) : 2^(bitlen n - 1) ≤ n :=
  (bitlenAux_bounds n n le_rfl).2 h

theorem bitlen_pos (n : Nat) (h : n ≠ 0) : 1 ≤ bitlen n := by
  rcases Nat.eq_zero_or_pos (bitlen n) with h0 | h0
  · have := bitlen_lt n
    rw [h0] at this
    omega
  · exact h0

/-- `bitlen n ≤ k` whenever `n < 2^k`. -/
theorem bitlen_le (n k : Nat) (h : n < 2^k) : bitlen n ≤ k := by
  by_cases h0 : n = 0
  · subst h0
    simp [bitlen, bitlenAux]
  · by_contra hgt
    have h1 : k ≤ bitlen n - 1 := by omega
    have h2 : (2:Nat)^k ≤ 2^(bitlen n - 1) := Nat.pow_le_pow_right (by omega) h1
    have h3 := bitlen_lb n h0
    omega

theorem truncQ_of_nonneg {q : ℚ} (h : 0 ≤ q) : truncQ q = ⌊q⌋ := if_pos h

theorem truncQ_intCast (n : Int) : truncQ (n : ℚ) = n := by
  unfold truncQ
  split
  · exact Int.floor_intCast n
  · exact Int.ceil_intCast n

theorem truncQ_neg (q : ℚ) : truncQ (-q) = -truncQ q := by
  unfold truncQ
  rcases lt_trichotomy q 0 with h | h | h
  · rw [if_pos (by linarith), if_neg (by linarith), Int.floor_neg]
  · subst h
    simp
  · rw [if_neg (by linarith), if_pos (by linarith), Int.ceil_neg]

theorem sval_natAbs (M : Int) : sval (decide (M < 0)) M.natAbs = M := by
  by_cases h : M < 0
  · rw [decide_eq_true h]
    unfold sval
    simp only [cond_true]
    omega
  · rw [decide_eq_false h]
    unfold sval
    simp only [cond_false]
    omega

theorem sval_le_m (s : Bool) (m : Nat) : sval s m ≤ (m : Int) := by
  cases s
  · simp [sval]
  · simp [sval]

theorem toVal_finite (s : Bool) (m : Nat) (e : Int) :
    (Fp.finite s m e).toVal = ((sval s m : Int) : ℚ) * (2:ℚ)^e := rfl

theorem two_zpow_pos (e : Int) : (0:ℚ) < 2^e := by positivity

/-- The scaled integer significand used by `fsub` and `fle` recovers the
value after multiplication by `2^E`. -/
theorem scaled_val (s : Bool) (m : Nat) (e E : Int) (h : E ≤ e) :
    ((sval s m * 2^(e-E).toNat : Int) : ℚ) * (2:ℚ)^E = (Fp.finite s m e).toVal := by
  have ht : ((e - E).toNat : Int) = e - E := Int.toNat_of_nonneg (by omega)
  rw [toVal_finite]
  push_cast
  rw [mul_assoc, ← zpow_natCast (2:ℚ) (e-E).toNat, ht, ← zpow_add₀ (by norm_num : (2:ℚ) ≠ 0)]
  congr 2
  omega

/-- Truncation of a finite datum agrees with truncation toward zero of its
exact rational value. -/
theorem truncInt_eq (s : Bool) (m : Nat) (e : Int) :
    (Fp.finite s m e).truncInt = truncQ (Fp.finite s m e).toVal := by
  have key : truncQ ((m : ℚ) * (2:ℚ)^e) =
      (((if 0 ≤ e then m * 2^e.toNat else m / 2^(-e).toNat) : Nat) : Int) := by
    by_cases he : 0 ≤ e
    · rw [if_pos he]
      have ht : (e.toNat : Int) = e := Int.toNat_of_nonneg he
      have hz : (2:ℚ)^e = (2:ℚ)^(e.toNat) := by
        rw [← zpow_natCast (2:ℚ) e.toNat, ht]
      rw [hz]
      have h2 : (m : ℚ) * (2:ℚ)^(e.toNat) = (((m * 2^e.toNat : Nat) : Int) : ℚ) := by
        push_cast
        ring
      rw [h2, truncQ_intCast]
    · rw [if_neg he]
      have hz : (2:ℚ)^e = ((2:ℚ)^((-e).toNat))⁻¹ := by
        rw [← zpow_natCast (2:ℚ) (-e).toNat, ← zpow_neg]
        congr 1
        omega
      rw [hz]
      have h2 : (m : ℚ) * ((2:ℚ)^((-e).toNat))⁻¹ = (m : ℚ) / (((2^(-e).toNat : Nat)) : ℚ) := by
        push_cast
        ring
      rw [h2, truncQ_of_nonneg (by positivity), Rat.floor_natCast_div_natCast]
      exact (Int.ofNat_ediv m (2^(-e).toNat)).symm
  cases s with
  | false =>
    rw [toVal_finite]
    have hs : ((sval false m : Int) : ℚ) = (m : ℚ) := by simp [sval]
    rw [hs, key]
    simp [Fp.truncInt]
  | true =>
    rw [toVal_finite]
    have hs : ((sval true m : Int) : ℚ) = -((m : ℚ)) := by simp [sval]
    have hneg : -((m : ℚ)) * (2:ℚ)^e = -((m : ℚ) * (2:ℚ)^e) := by ring
    rw [hs, hneg, truncQ_neg, key]
    simp [Fp.truncInt]

theorem sval_mul_pow (s : Bool) (a b : Nat) : sval s (a * b) = sval s a * (b : Int) := by
  cases s <;> simp [sval]

theorem fpChecked_finite (fmt : FloatFormat) (s : Bool) (m : Nat) (e : Int)
    (h : e ≤ fmt.emaxM) : fpChecked fmt s m e = Fp.finite s m e := by
  unfold fpChecked
  rw [if_neg (by omega)]

/-- A dyadic rational whose significand fits the format's precision and whose
exponent is in range is returned exactly (and as a finite, well-formed datum)
by round to nearest: rounding exactly representable values is the
identity. -/
theorem roundDyadic_exact (fmt : FloatFormat) (M B : Int) (d : Nat) (E : Int)
    (hMf : M = B * 2^d) (hB : B ≠ 0) (hBlt : B.natAbs < 2^fmt.prec)
    (hEmin : fmt.eminM ≤ E) (hEmax : E + d ≤ fmt.emaxM) :
    (roundDyadic fmt M E).isFinite = true ∧
    (roundDyadic fmt M E).valid fmt = true ∧
    (roundDyadic fmt M E).toVal = (M : ℚ) * (2:ℚ)^E := by
  have hM0 : M ≠ 0 := by
    rw [hMf]
    intro h
    rcases mul_eq_zero.1 h with h | h
    · exact hB h
    · exact pow_ne_zero d (by norm_num) h
  have hA : M.natAbs = B.natAbs * 2^d := by
    rw [hMf, Int.natAbs_mul, Int.natAbs_pow]
    rfl
  have hA0 : M.natAbs ≠ 0 := Int.natAbs_ne_zero.2 hM0
  have hAlt : M.natAbs < 2^(fmt.prec + d) := by
    rw [hA, pow_add]
    exact (Nat.mul_lt_mul_right (pow_pos (by norm_num : 0 < 2) d)).2 hBlt
  have hbl1 : M.natAbs < 2^(bitlen M.natAbs) := bitlen_lt _
  have hbl_le : bitlen M.natAbs ≤ fmt.prec + d := bitlen_le _ _ hAlt
  have hbl_pos : 1 ≤ bitlen M.natAbs := bitlen_pos _ hA0
  unfold roundDyadic
  rw [if_neg hM0]
  dsimp only
  by_cases het : max fmt.eminM (E + (bitlen M.natAbs : Int) - fmt.prec) ≤ E
  · rw [if_pos het]
    set et := max fmt.eminM (E + (bitlen M.natAbs : Int) - fmt.prec) with hetdef
    have hetmax : E + (bitlen M.natAbs : Int) - fmt.prec ≤ et := le_max_right _ _
    have hetmin : fmt.eminM ≤ et := le_max_left _ _
    have hetmax2 : et ≤ fmt.emaxM := le_trans het (by omega)
    rw [fpChecked_finite fmt _ _ _ hetmax2]
    have hu : ((E - et).toNat : Int) = E - et := Int.toNat_of_nonneg (by omega)
    have hmlt : M.natAbs * 2^((E - et).toNat) < 2^fmt.prec := by
      calc M.natAbs * 2^((E - et).toNat) < 2^(bitlen M.natAbs) * 2^((E - et).toNat) :=
            (Nat.mul_lt_mul_right (pow_pos (by norm_num : 0 < 2) _)).2 hbl1
        _ = 2^(bitlen M.natAbs + (E - et).toNat) := by rw [pow_add]
        _ ≤ 2^fmt.prec := Nat.pow_le_pow_right (by norm_num) (by omega)
    refine ⟨rfl, ?_, ?_⟩
    · simp only [Fp.valid, Bool.and_eq_true, decide_eq_true_eq]
      exact ⟨⟨hmlt, hetmin⟩, hetmax2⟩
    · rw [toVal_finite, sval_mul_pow, sval_natAbs]
      push_cast
      rw [mul_assoc, ← zpow_natCast (2:ℚ) (E - et).toNat, ← zpow_add₀ (by norm_num : (2:ℚ) ≠ 0)]
      congr 2
      omega
  · rw [if_neg het]
    set bl := bitlen M.natAbs with hbldef
    have hetx : max fmt.eminM (E + (bl:Int) - fmt.prec) = E + (bl:Int) - fmt.prec := by
      rcases max_choice fmt.eminM (E + (bl:Int) - fmt.prec) with h | h
      · rw [h] at het
        omega
      · exact h
    rw [hetx] at het ⊢
    have hprecbl : fmt.prec < bl := by omega
    have hshn : (E + (bl:Int) - fmt.prec - E).toNat = bl - fmt.prec := by omega
    rw [hshn, Nat.shiftRight_eq_div_pow]
    have hshd : bl - fmt.prec ≤ d := by omega
    have hdvd : 2^(bl - fmt.prec) ∣ M.natAbs := by
      rw [hA]
      exact Dvd.dvd.mul_left (pow_dvd_pow 2 hshd) _
    have hr : M.natAbs % 2^(bl - fmt.prec) = 0 := Nat.mod_eq_zero_of_dvd hdvd
    rw [hr]
    have hcond : ¬((2^(bl - fmt.prec - 1) : ℕ) < 0 ∨
        ((0 : ℕ) = 2^(bl - fmt.prec - 1) ∧ M.natAbs / 2^(bl - fmt.prec) % 2 = 1)) := by
      intro h
      rcases h with h | ⟨h, _⟩
      · exact absurd h (Nat.not_lt_zero _)
      · have := pow_pos (by norm_num : 0 < 2) (bl - fmt.prec - 1)
        omega
    rw [if_neg hcond]
    have hq_lt : M.natAbs / 2^(bl - fmt.prec) < 2^fmt.prec := by
      rw [Nat.div_lt_iff_lt_mul (pow_pos (by norm_num : 0 < 2) _)]
      calc M.natAbs < 2^bl := hbl1
        _ = 2^fmt.prec * 2^(bl - fmt.prec) := by rw [← pow_add]; congr 1; omega
    rw [if_neg (by omega : ¬(M.natAbs / 2^(bl - fmt.prec) = 2^fmt.prec))]
    rw [fpChecked_finite fmt _ _ _ (by omega : E + (bl:Int) - fmt.prec ≤ fmt.emaxM)]
    refine ⟨rfl, ?_, ?_⟩
    · simp only [Fp.valid, Bool.and_eq_true, decide_eq_true_eq]
      exact ⟨⟨hq_lt, by omega⟩, by omega⟩
    · rw [toVal_finite]
      have hqm : M.natAbs / 2^(bl - fmt.prec) * 2^(bl - fmt.prec) = M.natAbs :=
        Nat.div_mul_cancel hdvd
      have hsv2 : sval (decide (M < 0)) (M.natAbs / 2^(bl - fmt.prec)) * ((2^(bl - fmt.prec) : Nat) : Int) = M := by
        rw [← sval_mul_pow, hqm, sval_natAbs]
      conv_rhs => rw [← hsv2]
      push_cast
      have hexp : E + (bl:Int) - fmt.prec = ((bl - fmt.prec : Nat) : Int) + E := by omega
      rw [hexp, zpow_add₀ (by norm_num : (2:ℚ) ≠ 0), zpow_natCast]
      ring

/-- Exactness of the float subtraction `x - t` when `0 < t ≤ x ≤ 2t` (a
Sterbenz-style window; the branchless algorithm subtracts `t = 2^(w-1)` from
an `x` that truncates into `[2^(w-1), 2^w)`, and such an `x` satisfies
`t ≤ x < 2t`). -/
theorem fsub_window (fmt : FloatFormat)
    (h0min : fmt.eminM ≤ 0) (h0max : 0 ≤ fmt.emaxM)
    (sx : Bool) (mx : Nat) (ex : Int) (st : Bool) (mt : Nat) (et : Int)
    (hxv : (Fp.finite sx mx ex).valid fmt = true)
    (htv : (Fp.finite st mt et).valid fmt = true)
    (ht_pos : 0 < (Fp.finite st mt et).toVal)
    (h1 : (Fp.finite st mt et).toVal ≤ (Fp.finite sx mx ex).toVal)
    (h2 : (Fp.finite sx mx ex).toVal ≤ 2 * (Fp.finite st mt et).toVal) :
    (Fp.fsub fmt (Fp.finite sx mx ex) (Fp.finite st mt et)).isFinite = true ∧
    (Fp.fsub fmt (Fp.finite sx mx ex) (Fp.finite st mt et)).valid fmt = true ∧
    (Fp.fsub fmt (Fp.finite sx mx ex) (Fp.finite st mt et)).toVal =
      (Fp.finite sx mx ex).toVal - (Fp.finite st mt et).toVal := by
  simp only [Fp.valid, Bool.and_eq_true, decide_eq_true_eq] at hxv htv
  obtain ⟨⟨hxm, hxe1⟩, hxe2⟩ := hxv
  obtain ⟨⟨htm, hte1⟩, hte2⟩ := htv
  unfold Fp.fsub
  dsimp only
  set E := min ex et with hE
  set M := sval sx mx * 2^((ex - E).toNat) - sval st mt * 2^((et - E).toNat) with hM
  have hval : ((M : Int) : ℚ) * (2:ℚ)^E =
      (Fp.finite sx mx ex).toVal - (Fp.finite st mt et).toVal := by
    have hsplit : ((M : Int) : ℚ) = ((sval sx mx * 2^((ex - E).toNat) : Int) : ℚ) -
        ((sval st mt * 2^((et - E).toNat) : Int) : ℚ) := by
      rw [hM]
      push_cast
      ring
    rw [hsplit, sub_mul, scaled_val sx mx ex E (min_le_left _ _),
      scaled_val st mt et E (min_le_right _ _)]
  by_cases hM0 : M = 0
  · rw [if_pos hM0]
    refine ⟨rfl, ?_, ?_⟩
    · simp only [Fp.valid, Bool.and_eq_true, decide_eq_true_eq]
      exact ⟨⟨pow_pos (by norm_num : 0 < 2) _, h0min⟩, h0max⟩
    · have hzero : (Fp.finite (sx && !st) 0 0).toVal = 0 := by
        rw [toVal_finite]
        cases (sx && !st) <;> simp [sval]
      rw [hzero]
      rw [hM0] at hval
      push_cast at hval
      linarith
  · rw [if_neg hM0]
    have hMnonneg : 0 ≤ M := by
      by_contra hneg
      have hq : ((M : Int) : ℚ) < 0 := by
        exact_mod_cast not_le.mp hneg
      nlinarith [two_zpow_pos E, hval]
    have hMlt : M.natAbs < 2^fmt.prec := by
      rcases min_cases ex et with ⟨hmin, hcmp⟩ | ⟨hmin, hcmp⟩
      · -- E = ex: the difference is at most x = sval sx mx * 2^ex ≤ mx * 2^ex
        have hxle : (Fp.finite sx mx ex).toVal ≤ (mx : ℚ) * (2:ℚ)^E := by
          rw [toVal_finite, hE, hmin]
          have : ((sval sx mx : Int) : ℚ) ≤ (mx : ℚ) := by
            exact_mod_cast sval_le_m sx mx
          nlinarith [two_zpow_pos ex]
        have hle1 : ((M : Int) : ℚ) * (2:ℚ)^E ≤ (mx : ℚ) * (2:ℚ)^E := by
          rw [hval]
          linarith
        have hle2 : ((M : Int) : ℚ) ≤ (mx : ℚ) :=
          (mul_le_mul_right (two_zpow_pos E)).1 hle1
        have : M ≤ (mx : Int) := by exact_mod_cast hle2
        omega
      · -- E = et: the difference is at most t = sval st mt * 2^et ≤ mt * 2^et
        have htle : (Fp.finite st mt et).toVal ≤ (mt : ℚ) * (2:ℚ)^E := by
          rw [toVal_finite, hE, hmin]
          have : ((sval st mt : Int) : ℚ) ≤ (mt : ℚ) := by
            exact_mod_cast sval_le_m st mt
          nlinarith [two_zpow_pos et]
        have hle1 : ((M : Int) : ℚ) * (2:ℚ)^E ≤ (mt : ℚ) * (2:ℚ)^E := by
          rw [hval]
          linarith
        have hle2 : ((M : Int) : ℚ) ≤ (mt : ℚ) :=
          (mul_le_mul_right (two_zpow_pos E)).1 hle1
        have : M ≤ (mt : Int) := by exact_mod_cast hle2
        omega
    obtain ⟨hf, hv, hval'⟩ := roundDyadic_exact fmt M M 0 E (by ring) hM0 hMlt
      (by rw [hE]; omega) (by push_cast; rw [hE]; omega)
    exact ⟨hf, hv, by rw [hval', hval]⟩

/-- The finite-finite case of the float comparison agrees with the order of
the exact rational values. -/
theorem fle_finite (sx : Bool) (mx : Nat) (ex : Int) (sy : Bool) (my : Nat) (ey : Int) :
    (Fp.finite sx mx ex).fle (Fp.finite sy my ey) =
      decide ((Fp.finite sx mx ex).toVal ≤ (Fp.finite sy my ey).toVal) := by
  unfold Fp.fle
  dsimp only
  rw [decide_eq_decide]
  set E := min ex ey with hE
  constructor
  · intro h
    have hq : ((sval sx mx * 2^((ex - E).toNat) : Int) : ℚ) ≤
        ((sval sy my * 2^((ey - E).toNat) : Int) : ℚ) := by exact_mod_cast h
    have := mul_le_mul_of_nonneg_right hq (le_of_lt (two_zpow_pos E))
    rwa [scaled_val sx mx ex E (min_le_left _ _),
      scaled_val sy my ey E (min_le_right _ _)] at this
  · intro h
    rw [← scaled_val sx mx ex E (min_le_left _ _),
      ← scaled_val sy my ey E (min_le_right _ _)] at h
    have hq := (mul_le_mul_right (two_zpow_pos E)).1 h
    exact_mod_cast hq

/-! ### Machine-integer lemmas -/

theorem two_pow_split_int (w : Nat) (hw : 1 ≤ w) : (2:Int)^w = 2 * 2^(w-1) := by
  conv_lhs => rw [← Nat.sub_one_add_one (by omega : w ≠ 0)]
  rw [pow_succ]
  ring

theorem two_pow_split_nat (w : Nat) (hw : 1 ≤ w) : (2:Nat)^w = 2 * 2^(w-1) := by
  conv_lhs => rw [← Nat.sub_one_add_one (by omega : w ≠ 0)]
  rw [pow_succ]
  ring

theorem two_pow_cast (k : Nat) : (((2:Nat)^k : Nat) : Int) = (2:Int)^k := by
  push_cast
  rfl

theorem lor_high {k n : Nat} (h : n < 2^k) : 2^k ||| n = 2^k + n := by
  apply Nat.eq_of_testBit_eq
  intro i
  rw [Nat.testBit_lor]
  rcases lt_trichotomy i k with hik | hik | hik
  · rw [Nat.testBit_two_pow_add_gt hik, Nat.testBit_two_pow_of_ne (by omega : k ≠ i)]
    simp
  · subst hik
    rw [Nat.testBit_two_pow_add_eq, Nat.testBit_two_pow_self, Nat.testBit_lt_two_pow h]
    simp
  · have h2 : (2:Nat)^(k+1) = 2 * 2^k := by rw [pow_succ]; ring
    have h1 : 2^k + n < 2^i := by
      have : (2:Nat)^(k+1) ≤ 2^i := Nat.pow_le_pow_right (by norm_num) (by omega)
      omega
    rw [Nat.testBit_lt_two_pow h1, Nat.testBit_two_pow_of_ne (by omega : k ≠ i),
      Nat.testBit_lt_two_pow (by omega : n < 2^i)]
    simp

theorem land_mask {n w : Nat} (h : n < 2^w) : n &&& (2^w - 1) = n := by
  apply Nat.eq_of_testBit_eq
  intro i
  rw [Nat.testBit_land, Nat.testBit_two_pow_sub_one]
  by_cases hi : i < w
  · simp [hi]
  · have hn : n < 2^i := lt_of_lt_of_le h (Nat.pow_le_pow_right (by norm_num) (by omega))
    rw [Nat.testBit_lt_two_pow hn]
    simp [hi]

theorem toBits_of_nonneg (w : Nat) (v : Int) (h0 : 0 ≤ v) (h1 : v < 2^w) :
    toBits w v = v.toNat := by
  unfold toBits
  rw [Int.emod_eq_of_lt h0 h1]

theorem toBits_of_neg (w : Nat) (v : Int) (h0 : -(2^w) ≤ v) (h1 : v < 0) :
    toBits w v = (v + 2^w).toNat := by
  unfold toBits
  have hself : (v + 2^w * 1) % (2^w : Int) = v % 2^w := Int.add_mul_emod_self_left v (2^w) 1
  rw [mul_one] at hself
  rw [← hself, Int.emod_eq_of_lt (by omega) (by omega)]

theorem toBits_zero (w : Nat) : toBits w 0 = 0 := by
  unfold toBits
  simp

theorem ofBitsS_small (w : Nat) (p : Nat) (h : p < 2^(w-1)) : ofBitsS w p = (p : Int) := by
  unfold ofBitsS
  rw [if_pos h]

theorem ofBitsS_large (w : Nat) (p : Nat) (h : ¬ p < 2^(w-1)) :
    ofBitsS w p = (p : Int) - 2^w := by
  unfold ofBitsS
  rw [if_neg h]

theorem band_zero_right (w : Nat) (a : Int) (hw : 1 ≤ w) : band w a 0 = 0 := by
  unfold band
  rw [toBits_zero, Nat.and_zero, ofBitsS_small w 0 (pow_pos (by norm_num) _)]
  rfl

theorem bor_zero_right (w : Nat) (a : Int) (hw : 1 ≤ w) (h0 : 0 ≤ a) (h1 : a < 2^(w-1)) :
    bor w a 0 = a := by
  unfold bor
  have hlt : a < 2^w := by
    have := two_pow_split_int w hw
    have hp := pow_pos (by norm_num : (0:Int) < 2) (w-1)
    omega
  rw [toBits_zero, Nat.or_zero, toBits_of_nonneg w a h0 hlt]
  have htn : (a.toNat : Int) = a := Int.toNat_of_nonneg h0
  have hpn : ((2^(w-1) : Nat) : Int) = (2:Int)^(w-1) := two_pow_cast _
  rw [ofBitsS_small w a.toNat (by omega), htn]

theorem band_neg_one_right (w : Nat) (a : Int) (hw : 1 ≤ w) (h0 : 0 ≤ a) (h1 : a < 2^(w-1)) :
    band w a (-1) = a := by
  unfold band
  have hsplit := two_pow_split_int w hw
  have hsplitn := two_pow_split_nat w hw
  have hp := pow_pos (by norm_num : (0:Int) < 2) (w-1)
  have hpn := pow_pos (by norm_num : (0:Nat) < 2) (w-1)
  have hlt : a < 2^w := by omega
  have hm : toBits w (-1) = 2^w - 1 := by
    rw [toBits_of_neg w (-1) (by omega) (by omega)]
    have hc : ((2^w - 1 : Nat) : Int) = -1 + 2^w := by
      push_cast [Nat.cast_sub (by omega : 1 ≤ 2^w)]
      ring
    omega
  rw [hm, toBits_of_nonneg w a h0 hlt]
  have htn : (a.toNat : Int) = a := Int.toNat_of_nonneg h0
  have hpn2 : ((2^(w-1) : Nat) : Int) = (2:Int)^(w-1) := two_pow_cast _
  have hpw : ((2^w : Nat) : Int) = (2:Int)^w := two_pow_cast _
  rw [land_mask (by omega : a.toNat < 2^w)]
  rw [ofBitsS_small w a.toNat (by omega), htn]

theorem toBits_iMin (w : Nat) (hw : 1 ≤ w) : toBits w (iMin w) = 2^(w-1) := by
  have hsplit := two_pow_split_int w hw
  have hp := pow_pos (by norm_num : (0:Int) < 2) (w-1)
  rw [iMin, toBits_of_neg w _ (by omega) (by omega)]
  have hpn2 : ((2^(w-1) : Nat) : Int) = (2:Int)^(w-1) := two_pow_cast _
  omega

theorem bor_iMin (w : Nat) (a : Int) (hw : 1 ≤ w) (h0 : 0 ≤ a) (h1 : a < 2^(w-1)) :
    bor w (iMin w) a = iMin w + a := by
  unfold bor
  have hsplit := two_pow_split_int w hw
  have hsplitn := two_pow_split_nat w hw
  have hp := pow_pos (by norm_num : (0:Int) < 2) (w-1)
  have hpn := pow_pos (by norm_num : (0:Nat) < 2) (w-1)
  have hpn2 : ((2^(w-1) : Nat) : Int) = (2:Int)^(w-1) := two_pow_cast _
  have htn : (a.toNat : Int) = a := Int.toNat_of_nonneg h0
  rw [toBits_iMin w hw, toBits_of_nonneg w a h0 (by omega)]
  rw [lor_high (by omega : a.toNat < 2^(w-1))]
  rw [ofBitsS_large w _ (by omega)]
  have hcast : ((2^(w-1) + a.toNat : Nat) : Int) = 2^(w-1) + a := by
    push_cast
    omega
  rw [hcast, iMin]
  omega

theorem sar_small (w : Nat) (a : Int) (h0 : 0 ≤ a) (h1 : a < 2^(w-1)) :
    too_large_mask w a = 0 := by
  lift a to ℕ using h0 with n
  have hn : n < 2^(w-1) := by exact_mod_cast h1
  show Int.shiftRight (Int.ofNat n) (w-1) = 0
  have hdef : Int.shiftRight (Int.ofNat n) (w-1) = Int.ofNat (n >>> (w-1)) := rfl
  rw [hdef, Nat.shiftRight_eq_div_pow, Nat.div_eq_of_lt hn]
  rfl

theorem sar_iMin (w : Nat) (hw : 1 ≤ w) : too_large_mask w (iMin w) = -1 := by
  have hpn := pow_pos (by norm_num : (0:Nat) < 2) (w-1)
  have hpn2 : ((2^(w-1) : Nat) : Int) = (2:Int)^(w-1) := two_pow_cast _
  have hrepr : iMin w = Int.negSucc (2^(w-1) - 1) := by
    rw [Int.negSucc_eq, iMin]
    push_cast [Nat.cast_sub (by omega : 1 ≤ 2^(w-1))]
    omega
  rw [hrepr]
  show Int.shiftRight (Int.negSucc (2^(w-1) - 1)) (w-1) = -1
  have hdef : Int.shiftRight (Int.negSucc (2^(w-1) - 1)) (w-1) =
      Int.negSucc ((2^(w-1) - 1) >>> (w-1)) := rfl
  rw [hdef, Nat.shiftRight_eq_div_pow, Nat.div_eq_of_lt (by omega)]
  rfl

theorem wrapU_id (w : Nat) (v : Int) (h0 : 0 ≤ v) (h1 : v < 2^w) : wrapU w v = v :=
  Int.emod_eq_of_lt h0 h1

theorem wrapU_bounds (w : Nat) (v : Int) : 0 ≤ wrapU w v ∧ wrapU w v < 2^w := by
  have hp := pow_pos (by norm_num : (0:Int) < 2) w
  exact ⟨Int.emod_nonneg v (by omega), Int.emod_lt_of_pos v hp⟩

theorem wrapS_id (w : Nat) (v : Int) (hw : 1 ≤ w) (h0 : iMin w ≤ v) (h1 : v ≤ iMax w) :
    wrapS w v = v := by
  unfold wrapS
  rw [iMin] at h0
  rw [iMax] at h1
  have hsplit := two_pow_split_int w hw
  rw [Int.emod_eq_of_lt (by omega) (by omega)]
  ring

theorem wrapS_bounds (w : Nat) (v : Int) (hw : 1 ≤ w) :
    iMin w ≤ wrapS w v ∧ wrapS w v ≤ iMax w := by
  have hp := pow_pos (by norm_num : (0:Int) < 2) w
  have hsplit := two_pow_split_int w hw
  have hb1 : 0 ≤ (v + 2^(w-1)) % (2^w : Int) := Int.emod_nonneg _ (by omega)
  have hb2 : (v + 2^(w-1)) % (2^w : Int) < 2^w := Int.emod_lt_of_pos _ hp
  unfold wrapS
  rw [iMin, iMax]
  omega

theorem wrapU_iMin_add (w : Nat) (n : Int) (hw : 1 ≤ w) (h0 : 0 ≤ n) (h1 : n < 2^(w-1)) :
    wrapU w (iMin w + n) = 2^(w-1) + n := by
  unfold wrapU
  rw [iMin]
  have hsplit := two_pow_split_int w hw
  have hself : (-(2^(w-1)) + n + 2^w * 1) % (2^w : Int) = (-(2^(w-1)) + n) % 2^w :=
    Int.add_mul_emod_self_left _ (2^w) 1
  rw [mul_one] at hself
  rw [← hself, Int.emod_eq_of_lt (by omega) (by omega)]
  omega

/-! ### Lemmas about the modelled hardware truncation and the casts -/

theorem cvtt_of_inRange (w : Nat) (float : Fp) (hfin : float.isFinite = true)
    (h1 : iMin w ≤ float.truncInt) (h2 : float.truncInt ≤ iMax w) :
    cvtt w float = float.truncInt := by
  cases float with
  | nan => simp [Fp.isFinite] at hfin
  | inf s => simp [Fp.isFinite] at hfin
  | finite s m e =>
    show (if (Fp.finite s m e).truncInt < iMin w ∨ iMax w < (Fp.finite s m e).truncInt
      then iMin w else (Fp.finite s m e).truncInt) = (Fp.finite s m e).truncInt
    rw [if_neg]
    push_neg
    exact ⟨h1, h2⟩

theorem cvtt_of_gt (w : Nat) (float : Fp) (h : iMax w < float.truncInt) :
    cvtt w float = iMin w := by
  cases float with
  | nan => rfl
  | inf s => rfl
  | finite s m e =>
    show (if (Fp.finite s m e).truncInt < iMin w ∨ iMax w < (Fp.finite s m e).truncInt
      then iMin w else (Fp.finite s m e).truncInt) = iMin w
    rw [if_pos (Or.inr h)]

theorem cvtt_of_lt (w : Nat) (float : Fp) (h : float.truncInt < iMin w) :
    cvtt w float = iMin w := by
  cases float with
  | nan => rfl
  | inf s => rfl
  | finite s m e =>
    show (if (Fp.finite s m e).truncInt < iMin w ∨ iMax w < (Fp.finite s m e).truncInt
      then iMin w else (Fp.finite s m e).truncInt) = iMin w
    rw [if_pos (Or.inl h)]

theorem cvtt_not_finite (w : Nat) (float : Fp) (h : float.isFinite = false) :
    cvtt w float = iMin w := by
  cases float with
  | nan => rfl
  | inf s => rfl
  | finite s m e => simp [Fp.isFinite] at h

theorem cvtt_bounds (w : Nat) (float : Fp) (hw : 1 ≤ w) :
    iMin w ≤ cvtt w float ∧ cvtt w float ≤ iMax w := by
  have hp := pow_pos (by norm_num : (0:Int) < 2) (w-1)
  have hminmax : iMin w ≤ iMax w := by
    rw [iMin, iMax]
    omega
  cases float with
  | nan => exact ⟨le_refl _, hminmax⟩
  | inf s => exact ⟨le_refl _, hminmax⟩
  | finite s m e =>
    show iMin w ≤ (if (Fp.finite s m e).truncInt < iMin w ∨ iMax w < (Fp.finite s m e).truncInt
      then iMin w else (Fp.finite s m e).truncInt) ∧
      (if (Fp.finite s m e).truncInt < iMin w ∨ iMax w < (Fp.finite s m e).truncInt
      then iMin w else (Fp.finite s m e).truncInt) ≤ iMax w
    split
    · exact ⟨le_refl _, hminmax⟩
    · rename_i hcond
      push_neg at hcond
      exact hcond

/-- A finite datum whose truncation is at least `1` has a positive value,
and its truncation is the floor of its value. -/
theorem truncInt_pos_floor (s : Bool) (m : Nat) (e : Int)
    (h : 1 ≤ (Fp.finite s m e).truncInt) :
    0 < (Fp.finite s m e).toVal ∧ (Fp.finite s m e).truncInt = ⌊(Fp.finite s m e).toVal⌋ := by
  rw [truncInt_eq] at h ⊢
  set q := (Fp.finite s m e).toVal with hq
  by_cases hq0 : 0 ≤ q
  · rw [truncQ_of_nonneg hq0] at h ⊢
    have hle := Int.floor_le q
    have h1 : (1:ℚ) ≤ (⌊q⌋ : ℚ) := by exact_mod_cast h
    exact ⟨by linarith, rfl⟩
  · exfalso
    rw [truncQ, if_neg hq0] at h
    have : ⌈q⌉ ≤ 0 := Int.ceil_le.mpr (by
      push_cast
      exact le_of_lt (not_le.mp hq0))
    omega

theorem floor_bounds (q : ℚ) : (⌊q⌋ : ℚ) ≤ q ∧ q < (⌊q⌋ : ℚ) + 1 :=
  ⟨Int.floor_le q, Int.lt_floor_add_one q⟩

theorem rustCast_of_inRange (lo hi : Int) (float : Fp) (h : InRange lo hi float) :
    rustCast lo hi float = float.truncInt := by
  obtain ⟨hfin, h1, h2⟩ := h
  cases float with
  | nan => simp [Fp.isFinite] at hfin
  | inf s => simp [Fp.isFinite] at hfin
  | finite s m e =>
    show max lo (min hi (Fp.finite s m e).truncInt) = (Fp.finite s m e).truncInt
    omega

theorem truncInt_eq_of_finite (float : Fp) (h : float.isFinite = true) :
    float.truncInt = truncQ float.toVal := by
  cases float with
  | nan => simp [Fp.isFinite] at h
  | inf s => simp [Fp.isFinite] at h
  | finite s m e => exact truncInt_eq s m e

/-- Correctness of the branchless unsigned extension (§4.2): for every valid
finite input whose truncation toward zero lies in `[0, 2^w)`, the value
`(integer1 | (integer2 & (integer1 >> (w-1)))) as uW` computed from
`integer1 = cvtt w float` and `integer2 = cvtt w (float - 2^(w-1))` equals
that truncation. -/
theorem branchless_core (fmt : FloatFormat) (w : Nat) (float : Fp)
    (hw : 2 ≤ w)
    (hprec : 1 ≤ fmt.prec)
    (hemin : fmt.eminM ≤ 0)
    (hemax : ((w:Int) - 1) ≤ fmt.emaxM)
    (hv : float.valid fmt = true)
    (hfin : float.isFinite = true)
    (h0 : 0 ≤ float.truncInt) (hlt : float.truncInt < 2^w) :
    wrapU w (bor w (cvtt w float)
      (band w (cvtt w (Fp.fsub fmt float (ofIntF fmt ((2:Int)^(w-1)))))
        (too_large_mask w (cvtt w float)))) = float.truncInt := by
  have hw1 : 1 ≤ w := by omega
  have hpI := pow_pos (by norm_num : (0:Int) < 2) (w-1)
  have hsplit := two_pow_split_int w hw1
  by_cases hcase : float.truncInt < 2^(w-1)
  · -- the truncation fits the signed range: integer1 is already the result
    have hc := cvtt_of_inRange w float hfin (by rw [iMin]; omega) (by rw [iMax]; omega)
    rw [hc, sar_small w _ h0 hcase, band_zero_right w _ hw1,
      bor_zero_right w _ hw1 h0 hcase, wrapU_id w _ h0 (by omega)]
  · -- the truncation is in [2^(w-1), 2^w): integer1 is the sentinel and the
    -- masked or reassembles the high bit from integer2
    push_neg at hcase
    cases float with
    | nan => simp [Fp.isFinite] at hfin
    | inf s => simp [Fp.isFinite] at hfin
    | finite s m e =>
    obtain ⟨htf, htvld, htval⟩ := roundDyadic_exact fmt ((2:Int)^(w-1)) 1 (w-1) 0
      (by ring) one_ne_zero
      (by
        rw [Int.natAbs_one]
        have := Nat.pow_le_pow_right (by norm_num : 0 < 2) hprec
        simp at this
        omega)
      hemin
      (by
        have hc : ((w - 1 : Nat) : Int) = (w : Int) - 1 := by omega
        omega)
    have hT2 : ofIntF fmt ((2:Int)^(w-1)) = roundDyadic fmt ((2:Int)^(w-1)) 0 := rfl
    rw [hT2] at *
    cases hT3 : roundDyadic fmt ((2:Int)^(w-1)) 0 with
    | nan => rw [hT3] at htf; simp [Fp.isFinite] at htf
    | inf st => rw [hT3] at htf; simp [Fp.isFinite] at htf
    | finite st mt et2 =>
    rw [hT3] at htvld htval
    rw [zpow_zero, mul_one] at htval
    -- the input's value and floor
    obtain ⟨hqpos, hqfloor⟩ := truncInt_pos_floor s m e (by omega)
    set q := (Fp.finite s m e).toVal with hqdef
    rw [hqfloor] at hcase hlt h0
    have hfl := floor_bounds q
    have hql : ((2:ℚ))^(w-1) ≤ q := by
      have h1 : (((2:Int)^(w-1) : Int) : ℚ) ≤ (⌊q⌋ : ℚ) := by exact_mod_cast hcase
      push_cast at h1
      linarith [hfl.1]
    have hqu : q < 2 * (2:ℚ)^(w-1) := by
      have h1 : (⌊q⌋ : ℚ) + 1 ≤ (((2:Int)^w : Int) : ℚ) := by
        exact_mod_cast (by omega : ⌊q⌋ + 1 ≤ (2:Int)^w)
      push_cast at h1
      have h2 : ((2:ℚ))^w = 2 * 2^(w-1) := by exact_mod_cast hsplit
      linarith [hfl.2]
    have htvq : (Fp.finite st mt et2).toVal = ((2:ℚ))^(w-1) := by
      rw [htval]
      push_cast
      rfl
    -- exact subtraction
    obtain ⟨hgf, hgv, hgval⟩ := fsub_window fmt hemin (by omega) s m e st mt et2 hv htvld
      (by rw [htvq]; positivity) (by rw [htvq, ← hqdef]; exact hql)
      (by rw [htvq, ← hqdef]; linarith)
    set g := Fp.fsub fmt (Fp.finite s m e) (Fp.finite st mt et2) with hgdef
    have hgtrunc : g.truncInt = ⌊q⌋ - 2^(w-1) := by
      rw [truncInt_eq_of_finite g hgf, hgval, ← hqdef, htvq]
      have hTc : ((2:ℚ))^(w-1) = (((2:Int)^(w-1) : Int) : ℚ) := by push_cast; rfl
      rw [hTc, truncQ_of_nonneg (by rw [← hTc]; linarith), Int.floor_sub_int]
    have hi1 : cvtt w (Fp.finite s m e) = iMin w := by
      apply cvtt_of_gt
      rw [iMax, hqfloor]
      omega
    have hi2 : cvtt w g = ⌊q⌋ - 2^(w-1) := by
      rw [← hgtrunc]
      apply cvtt_of_inRange w g hgf
      · rw [iMin, hgtrunc]
        omega
      · rw [iMax, hgtrunc]
        omega
    rw [hi1, hi2, sar_iMin w hw1, band_neg_one_right w _ hw1 (by omega) (by omega),
      bor_iMin w _ hw1 (by omega) (by omega), wrapU_iMin_add w _ hw1 (by omega) (by omega),
      hqfloor]
    omega

/-! ### Instance corollaries for the four branchless conversions -/

theorem f32_to_u64_branchless_inRange (float : Fp) (hv : float.valid fmt32 = true)
    (hfin : float.isFinite = true) (h0 : 0 ≤ float.truncInt)
    (hlt : float.truncInt < 2^64) :
    target_x86_64_sse.f32_to_u64_branchless float = float.truncInt :=
  branchless_core fmt32 64 float (by norm_num) (by decide) (by decide) (by decide)
    hv hfin h0 hlt

theorem f64_to_u64_inRange (float : Fp) (hv : float.valid fmt64 = true)
    (hfin : float.isFinite = true) (h0 : 0 ≤ float.truncInt)
    (hlt : float.truncInt < 2^64) :
    target_x86_64_sse.f64_to_u64 float = float.truncInt :=
  branchless_core fmt64 64 float (by norm_num) (by decide) (by decide) (by decide)
    hv hfin h0 hlt

theorem f32_to_u32_inRange (float : Fp) (hv : float.valid fmt32 = true)
    (hfin : float.isFinite = true) (h0 : 0 ≤ float.truncInt)
    (hlt : float.truncInt < 2^32) :
    target_x86_sse.f32_to_u32 float = float.truncInt :=
  branchless_core fmt32 32 float (by norm_num) (by decide) (by decide) (by decide)
    hv hfin h0 hlt

theorem f64_to_u32_inRange (float : Fp) (hv : float.valid fmt64 = true)
    (hfin : float.isFinite = true) (h0 : 0 ≤ float.truncInt)
    (hlt : float.truncInt < 2^32) :
    target_x86_sse.f64_to_u32 float = float.truncInt :=
  branchless_core fmt64 32 float (by norm_num) (by decide) (by decide) (by decide)
    hv hfin h0 hlt

theorem branchless_total_bounds (fmt : FloatFormat) (w : Nat) (float : Fp) :
    0 ≤ wrapU w (bor w (cvtt w float)
      (band w (cvtt w (Fp.fsub fmt float (ofIntF fmt ((2:Int)^(w-1)))))
        (too_large_mask w (cvtt w float)))) ∧
    wrapU w (bor w (cvtt w float)
      (band w (cvtt w (Fp.fsub fmt float (ofIntF fmt ((2:Int)^(w-1)))))
        (too_large_mask w (cvtt w float)))) < 2^w :=
  wrapU_bounds w _

/-! ### The branchful reference implementation -/

/-- Correctness of the branching reference implementation on every in-range
input for `u64`. -/
theorem f32_to_u64_branchful_inRange (float : Fp) (hv : float.valid fmt32 = true)
    (hfin : float.isFinite = true) (h0 : 0 ≤ float.truncInt)
    (hlt : float.truncInt < 2^64) :
    target_x86_64_sse._f32_to_u64_branchful float = float.truncInt := by
  cases float with
  | nan => simp [Fp.isFinite] at hfin
  | inf s => simp [Fp.isFinite] at hfin
  | finite s m e =>
  -- the threshold float 2^63, exactly
  obtain ⟨htf, htvld, htval⟩ := roundDyadic_exact fmt32 ((2:Int)^63) 1 63 0
    (by ring) one_ne_zero (by decide) (by decide) (by decide)
  have hT2 : power_of_two_f32 63 = roundDyadic fmt32 ((2:Int)^63) 0 := rfl
  cases hT3 : roundDyadic fmt32 ((2:Int)^63) 0 with
  | nan => rw [hT3] at htf; simp [Fp.isFinite] at htf
  | inf st => rw [hT3] at htf; simp [Fp.isFinite] at htf
  | finite st mt et2 =>
  rw [hT3] at htvld htval
  rw [zpow_zero, mul_one] at htval
  have htvq : (Fp.finite st mt et2).toVal = ((2:ℚ))^(63:Nat) := by
    rw [htval]
    push_cast
    rfl
  have hbf : target_x86_64_sse._f32_to_u64_branchful (Fp.finite s m e) =
      (if (Fp.finite s m e).fle (Fp.finite st mt et2)
        then wrapU 64 (cvtt 64 (Fp.finite s m e))
        else (wrapU 64 (cvtt 64 (Fp.fsub fmt32 (Fp.finite s m e) (Fp.finite st mt et2)))
          + 2^63) % (2^64 : Int)) := by
    unfold target_x86_64_sse._f32_to_u64_branchful
    rw [hT2, hT3]
    rfl
  rw [hbf, fle_finite]
  clear hbf
  set q := (Fp.finite s m e).toVal with hqdef
  have htrunc : (Fp.finite s m e).truncInt = truncQ q := truncInt_eq s m e
  by_cases hle : q ≤ (Fp.finite st mt et2).toVal
  · rw [decide_eq_true hle, if_pos rfl]
    by_cases hsmall : (Fp.finite s m e).truncInt < 2^63
    · rw [cvtt_of_inRange 64 _ hfin (by rw [iMin]; omega) (by rw [iMax]; omega)]
      exact wrapU_id 64 _ h0 (by omega)
    · -- the only in-range value with q ≤ 2^63 and truncation ≥ 2^63 is exactly 2^63
      push_neg at hsmall
      obtain ⟨hqpos, hqfloor⟩ := truncInt_pos_floor s m e (by omega)
      have hfl := floor_bounds q
      have hc1 : (((2:Int)^63 : Int) : ℚ) ≤ (⌊q⌋ : ℚ) := by
        rw [← hqfloor]
        exact_mod_cast hsmall
      rw [htvq] at hle
      have hc2 : (((2:Int)^63 : Int) : ℚ) = ((2:ℚ))^(63:Nat) := by push_cast; rfl
      have hqeq : (⌊q⌋ : ℚ) = ((2:ℚ))^(63:Nat) := by linarith [hfl.1]
      have htr : (Fp.finite s m e).truncInt = (2:Int)^63 := by
        rw [hqfloor]
        exact_mod_cast hqeq.trans hc2.symm
      rw [cvtt_of_gt 64 _ (by rw [iMax, htr]; decide), htr]
      have := wrapU_iMin_add 64 0 (by norm_num) le_rfl (by decide)
      rw [add_zero] at this
      rw [this]
      decide
    -- end small/exact subcases
  · rw [decide_eq_false hle, if_neg (by simp)]
    push_neg at hle
    rw [htvq] at hle
    have hq0 : (0:ℚ) < q := lt_trans (by positivity) hle
    have htfl : (Fp.finite s m e).truncInt = ⌊q⌋ := by
      rw [htrunc, truncQ_of_nonneg (le_of_lt hq0)]
    rw [htfl] at h0 hlt
    have hfl := floor_bounds q
    have hql : ((2:ℚ))^(63:Nat) ≤ q := le_of_lt hle
    have hqu : q < 2 * (2:ℚ)^(63:Nat) := by
      have h1 : (⌊q⌋ : ℚ) + 1 ≤ (((2:Int)^64 : Int) : ℚ) := by
        exact_mod_cast (by omega : ⌊q⌋ + 1 ≤ (2:Int)^64)
      push_cast at h1
      have h2 : ((2:ℚ))^(64:Nat) = 2 * 2^(63:Nat) := by norm_num [pow_succ]
      linarith [hfl.2]
    obtain ⟨hgf, hgv, hgval⟩ := fsub_window fmt32 (by decide) (by decide) s m e st mt et2 hv htvld
      (by rw [htvq]; positivity) (by rw [htvq, ← hqdef]; exact hql)
      (by rw [htvq, ← hqdef]; linarith)
    set g := Fp.fsub fmt32 (Fp.finite s m e) (Fp.finite st mt et2) with hgdef
    have hgtrunc : g.truncInt = ⌊q⌋ - 2^63 := by
      rw [truncInt_eq_of_finite g hgf, hgval, ← hqdef, htvq]
      have hTc : ((2:ℚ))^(63:Nat) = (((2:Int)^63 : Int) : ℚ) := by push_cast; rfl
      rw [hTc, truncQ_of_nonneg (by rw [← hTc]; linarith), Int.floor_sub_int]
    have hfloor63 : (2:Int)^63 ≤ ⌊q⌋ := by
      rw [Int.le_floor]
      have : (((2:Int)^63 : Int) : ℚ) = ((2:ℚ))^(63:Nat) := by push_cast; rfl
      rw [this]
      exact hql
    rw [cvtt_of_inRange 64 g hgf (by rw [iMin, hgtrunc]; omega) (by rw [iMax, hgtrunc]; omega)]
    rw [hgtrunc, wrapU_id 64 _ (by omega) (by omega)]
    rw [Int.emod_eq_of_lt (by omega) (by omega)]
    omega

/-! ### Range agreement (spec §8) -/

/-- Spec §8 "Range agreement" for one conversion function: on every valid
in-range input the conversion equals the standard `as` cast. -/
def RangeAgree (fmt : FloatFormat) (conv : Fp → Int) (lo hi : Int) : Prop :=
  ∀ float : Fp, float.valid fmt = true → InRange lo hi float →
    conv float = rustCast lo hi float

/-- The output of a conversion function always lies in `[lo, hi]`, the range
of the output integer type (spec §8 "no crash on any input": every call
returns a valid value of the output type). -/
def OutBounds (conv : Fp → Int) (lo hi : Int) : Prop :=
  ∀ float : Fp, lo ≤ conv float ∧ conv float ≤ hi

theorem agree_wrapS (fmt : FloatFormat) (W w : Nat) (hw : 1 ≤ w)
    (hmin : iMin W ≤ iMin w) (hmax : iMax w ≤ iMax W) :
    RangeAgree fmt (fun float => wrapS w (cvtt W float)) (iMin w) (iMax w) := by
  intro float _ h
  obtain ⟨hfin, h1, h2⟩ := h
  simp only
  rw [cvtt_of_inRange W float hfin (le_trans hmin h1) (le_trans h2 hmax),
    wrapS_id w _ hw h1 h2, rustCast_of_inRange _ _ _ ⟨hfin, h1, h2⟩]

theorem agree_wrapU (fmt : FloatFormat) (W w : Nat) (hw : 1 ≤ w)
    (hmin : iMin W ≤ 0) (hmax : uMax w ≤ iMax W) :
    RangeAgree fmt (fun float => wrapU w (cvtt W float)) 0 (uMax w) := by
  intro float _ h
  obtain ⟨hfin, h1, h2⟩ := h
  simp only
  have hu : uMax w < 2^w := by
    have := pow_pos (by norm_num : (0:Int) < 2) w
    rw [uMax]
    omega
  rw [cvtt_of_inRange W float hfin (le_trans hmin h1) (le_trans h2 hmax),
    wrapU_id w _ h1 (by omega), rustCast_of_inRange _ _ _ ⟨hfin, h1, h2⟩]

theorem agree_cvtt (fmt : FloatFormat) (W : Nat) :
    RangeAgree fmt (fun float => cvtt W float) (iMin W) (iMax W) := by
  intro float _ h
  obtain ⟨hfin, h1, h2⟩ := h
  simp only
  rw [cvtt_of_inRange W float hfin h1 h2, rustCast_of_inRange _ _ _ ⟨hfin, h1, h2⟩]

theorem agree_rustCast (fmt : FloatFormat) (lo hi : Int) :
    RangeAgree fmt (fun float => rustCast lo hi float) lo hi :=
  fun _ _ _ => rfl

theorem agree_x64_f32_u64 :
    RangeAgree fmt32 target_x86_64_sse.implementation.f32_to_u64 0 (uMax 64) := by
  intro float hv h
  obtain ⟨hfin, h1, h2⟩ := h
  have hlt : float.truncInt < 2^64 := lt_of_le_of_lt h2 (by decide)
  show target_x86_64_sse.f32_to_u64_branchless float = _
  rw [f32_to_u64_branchless_inRange float hv hfin h1 hlt,
    rustCast_of_inRange _ _ _ ⟨hfin, h1, h2⟩]

theorem agree_x64_f64_u64 :
    RangeAgree fmt64 target_x86_64_sse.implementation.f64_to_u64 0 (uMax 64) := by
  intro float hv h
  obtain ⟨hfin, h1, h2⟩ := h
  have hlt : float.truncInt < 2^64 := lt_of_le_of_lt h2 (by decide)
  show target_x86_64_sse.f64_to_u64 float = _
  rw [f64_to_u64_inRange float hv hfin h1 hlt,
    rustCast_of_inRange _ _ _ ⟨hfin, h1, h2⟩]

theorem agree_x86_f32_u32 :
    RangeAgree fmt32 target_x86_sse.implementation.f32_to_u32 0 (uMax 32) := by
  intro float hv h
  obtain ⟨hfin, h1, h2⟩ := h
  have hlt : float.truncInt < 2^32 := lt_of_le_of_lt h2 (by decide)
  show target_x86_sse.f32_to_u32 float = _
  rw [f32_to_u32_inRange float hv hfin h1 hlt,
    rustCast_of_inRange _ _ _ ⟨hfin, h1, h2⟩]

theorem agree_x86_f64_u32 :
    RangeAgree fmt64 target_x86_sse.implementation.f64_to_u32 0 (uMax 32) := by
  intro float hv h
  obtain ⟨hfin, h1, h2⟩ := h
  have hlt : float.truncInt < 2^32 := lt_of_le_of_lt h2 (by decide)
  show target_x86_sse.f64_to_u32 float = _
  rw [f64_to_u32_inRange float hv hfin h1 hlt,
    rustCast_of_inRange _ _ _ ⟨hfin, h1, h2⟩]

/-- Range agreement for all 20 conversions of the `x86_64+sse` backend. -/
theorem x86_64_sse_range_agreement :
    RangeAgree fmt32 target_x86_64_sse.implementation.f32_to_i8 (iMin 8) (iMax 8) ∧
    RangeAgree fmt32 target_x86_64_sse.implementation.f32_to_u8 0 (uMax 8) ∧
    RangeAgree fmt32 target_x86_64_sse.implementation.f32_to_i16 (iMin 16) (iMax 16) ∧
    RangeAgree fmt32 target_x86_64_sse.implementation.f32_to_u16 0 (uMax 16) ∧
    RangeAgree fmt32 target_x86_64_sse.implementation.f32_to_i32 (iMin 32) (iMax 32) ∧
    RangeAgree fmt32 target_x86_64_sse.implementation.f32_to_u32 0 (uMax 32) ∧
    RangeAgree fmt32 target_x86_64_sse.implementation.f32_to_i64 (iMin 64) (iMax 64) ∧
    RangeAgree fmt32 target_x86_64_sse.implementation.f32_to_u64 0 (uMax 64) ∧
    RangeAgree fmt32 target_x86_64_sse.implementation.f32_to_i128 (iMin 128) (iMax 128) ∧
    RangeAgree fmt32 target_x86_64_sse.implementation.f32_to_u128 0 (uMax 128) ∧
    RangeAgree fmt64 target_x86_64_sse.implementation.f64_to_i8 (iMin 8) (iMax 8) ∧
    RangeAgree fmt64 target_x86_64_sse.implementation.f64_to_u8 0 (uMax 8) ∧
    RangeAgree fmt64 target_x86_64_sse.implementation.f64_to_i16 (iMin 16) (iMax 16) ∧
    RangeAgree fmt64 target_x86_64_sse.implementation.f64_to_u16 0 (uMax 16) ∧
    RangeAgree fmt64 target_x86_64_sse.implementation.f64_to_i32 (iMin 32) (iMax 32) ∧
    RangeAgree fmt64 target_x86_64_sse.implementation.f64_to_u32 0 (uMax 32) ∧
    RangeAgree fmt64 target_x86_64_sse.implementation.f64_to_i64 (iMin 64) (iMax 64) ∧
    RangeAgree fmt64 target_x86_64_sse.implementation.f64_to_u64 0 (uMax 64) ∧
    RangeAgree fmt64 target_x86_64_sse.implementation.f64_to_i128 (iMin 128) (iMax 128) ∧
    RangeAgree fmt64 target_x86_64_sse.implementation.f64_to_u128 0 (uMax 128) := by
  refine ⟨?_, ?_, ?_, ?_, ?_, ?_, ?_, ?_, ?_, ?_, ?_, ?_, ?_, ?_, ?_, ?_, ?_, ?_, ?_, ?_⟩
  · exact agree_wrapS fmt32 64 8 (by norm_num) (by decide) (by decide)
  · exact agree_wrapU fmt32 64 8 (by norm_num) (by decide) (by decide)
  · exact agree_wrapS fmt32 64 16 (by norm_num) (by decide) (by decide)
  · exact agree_wrapU fmt32 64 16 (by norm_num) (by decide) (by decide)
  · exact agree_wrapS fmt32 64 32 (by norm_num) (by decide) (by decide)
  · exact agree_wrapU fmt32 64 32 (by norm_num) (by decide) (by decide)
  · exact agree_cvtt fmt32 64
  · exact agree_x64_f32_u64
  · exact agree_rustCast fmt32 (iMin 128) (iMax 128)
  · exact agree_rustCast fmt32 0 (uMax 128)
  · exact agree_wrapS fmt64 64 8 (by norm_num) (by decide) (by decide)
  · exact agree_wrapU fmt64 64 8 (by norm_num) (by decide) (by decide)
  · exact agree_wrapS fmt64 64 16 (by norm_num) (by decide) (by decide)
  · exact agree_wrapU fmt64 64 16 (by norm_num) (by decide) (by decide)
  · exact agree_wrapS fmt64 64 32 (by norm_num) (by decide) (by decide)
  · exact agree_wrapU fmt64 64 32 (by norm_num) (by decide) (by decide)
  · exact agree_cvtt fmt64 64
  · exact agree_x64_f64_u64
  · exact agree_rustCast fmt64 (iMin 128) (iMax 128)
  · exact agree_rustCast fmt64 0 (uMax 128)

/-- Range agreement for all 20 conversions of the `x86+sse` backend. -/
theorem x86_sse_range_agreement :
    RangeAgree fmt32 target_x86_sse.implementation.f32_to_i8 (iMin 8) (iMax 8) ∧
    RangeAgree fmt32 target_x86_sse.implementation.f32_to_u8 0 (uMax 8) ∧
    RangeAgree fmt32 target_x86_sse.implementation.f32_to_i16 (iMin 16) (iMax 16) ∧
    RangeAgree fmt32 target_x86_sse.implementation.f32_to_u16 0 (uMax 16) ∧
    RangeAgree fmt32 target_x86_sse.implementation.f32_to_i32 (iMin 32) (iMax 32) ∧
    RangeAgree fmt32 target_x86_sse.implementation.f32_to_u32 0 (uMax 32) ∧
    RangeAgree fmt32 target_x86_sse.implementation.f32_to_i64 (iMin 64) (iMax 64) ∧
    RangeAgree fmt32 target_x86_sse.implementation.f32_to_u64 0 (uMax 64) ∧
    RangeAgree fmt32 target_x86_sse.implementation.f32_to_i128 (iMin 128) (iMax 128) ∧
    RangeAgree fmt32 target_x86_sse.implementation.f32_to_u128 0 (uMax 128) ∧
    RangeAgree fmt64 target_x86_sse.implementation.f64_to_i8 (iMin 8) (iMax 8) ∧
    RangeAgree fmt64 target_x86_sse.implementation.f64_to_u8 0 (uMax 8) ∧
    RangeAgree fmt64 target_x86_sse.implementation.f64_to_i16 (iMin 16) (iMax 16) ∧
    RangeAgree fmt64 target_x86_sse.implementation.f64_to_u16 0 (uMax 16) ∧
    RangeAgree fmt64 target_x86_sse.implementation.f64_to_i32 (iMin 32) (iMax 32) ∧
    RangeAgree fmt64 target_x86_sse.implementation.f64_to_u32 0 (uMax 32) ∧
    RangeAgree fmt64 target_x86_sse.implementation.f64_to_i64 (iMin 64) (iMax 64) ∧
    RangeAgree fmt64 target_x86_sse.implementation.f64_to_u64 0 (uMax 64) ∧
    RangeAgree fmt64 target_x86_sse.implementation.f64_to_i128 (iMin 128) (iMax 128) ∧
    RangeAgree fmt64 target_x86_sse.implementation.f64_to_u128 0 (uMax 128) := by
  refine ⟨?_, ?_, ?_, ?_, ?_, ?_, ?_, ?_, ?_, ?_, ?_, ?_, ?_, ?_, ?_, ?_, ?_, ?_, ?_, ?_⟩
  · exact agree_wrapS fmt32 32 8 (by norm_num) (by decide) (by decide)
  · exact agree_wrapU fmt32 32 8 (by norm_num) (by decide) (by decide)
  · exact agree_wrapS fmt32 32 16 (by norm_num) (by decide) (by decide)
  · exact agree_wrapU fmt32 32 16 (by norm_num) (by decide) (by decide)
  · exact agree_cvtt fmt32 32
  · exact agree_x86_f32_u32
  · exact agree_rustCast fmt32 (iMin 64) (iMax 64)
  · exact agree_rustCast fmt32 0 (uMax 64)
  · exact agree_rustCast fmt32 (iMin 128) (iMax 128)
  · exact agree_rustCast fmt32 0 (uMax 128)
  · exact agree_wrapS fmt64 32 8 (by norm_num) (by decide) (by decide)
  · exact agree_wrapU fmt64 32 8 (by norm_num) (by decide) (by decide)
  · exact agree_wrapS fmt64 32 16 (by norm_num) (by decide) (by decide)
  · exact agree_wrapU fmt64 32 16 (by norm_num) (by decide) (by decide)
  · exact agree_cvtt fmt64 32
  · exact agree_x86_f64_u32
  · exact agree_rustCast fmt64 (iMin 64) (iMax 64)
  · exact agree_rustCast fmt64 0 (uMax 64)
  · exact agree_rustCast fmt64 (iMin 128) (iMax 128)
  · exact agree_rustCast fmt64 0 (uMax 128)

/-- Range agreement for all 20 conversions of the fallback backend. -/
theorem default_range_agreement :
    RangeAgree fmt32 target_default.implementation.f32_to_i8 (iMin 8) (iMax 8) ∧
    RangeAgree fmt32 target_default.implementation.f32_to_u8 0 (uMax 8) ∧
    RangeAgree fmt32 target_default.implementation.f32_to_i16 (iMin 16) (iMax 16) ∧
    RangeAgree fmt32 target_default.implementation.f32_to_u16 0 (uMax 16) ∧
    RangeAgree fmt32 target_default.implementation.f32_to_i32 (iMin 32) (iMax 32) ∧
    RangeAgree fmt32 target_default.implementation.f32_to_u32 0 (uMax 32) ∧
    RangeAgree fmt32 target_default.implementation.f32_to_i64 (iMin 64) (iMax 64) ∧
    RangeAgree fmt32 target_default.implementation.f32_to_u64 0 (uMax 64) ∧
    RangeAgree fmt32 target_default.implementation.f32_to_i128 (iMin 128) (iMax 128) ∧
    RangeAgree fmt32 target_default.implementation.f32_to_u128 0 (uMax 128) ∧
    RangeAgree fmt64 target_default.implementation.f64_to_i8 (iMin 8) (iMax 8) ∧
    RangeAgree fmt64 target_default.implementation.f64_to_u8 0 (uMax 8) ∧
    RangeAgree fmt64 target_default.implementation.f64_to_i16 (iMin 16) (iMax 16) ∧
    RangeAgree fmt64 target_default.implementation.f64_to_u16 0 (uMax 16) ∧
    RangeAgree fmt64 target_default.implementation.f64_to_i32 (iMin 32) (iMax 32) ∧
    RangeAgree fmt64 target_default.implementation.f64_to_u32 0 (uMax 32) ∧
    RangeAgree fmt64 target_default.implementation.f64_to_i64 (iMin 64) (iMax 64) ∧
    RangeAgree fmt64 target_default.implementation.f64_to_u64 0 (uMax 64) ∧
    RangeAgree fmt64 target_default.implementation.f64_to_i128 (iMin 128) (iMax 128) ∧
    RangeAgree fmt64 target_default.implementation.f64_to_u128 0 (uMax 128) :=
  ⟨agree_rustCast _ _ _, agree_rustCast _ _ _, agree_rustCast _ _ _, agree_rustCast _ _ _,
   agree_rustCast _ _ _, agree_rustCast _ _ _, agree_rustCast _ _ _, agree_rustCast _ _ _,
   agree_rustCast _ _ _, agree_rustCast _ _ _, agree_rustCast _ _ _, agree_rustCast _ _ _,
   agree_rustCast _ _ _, agree_rustCast _ _ _, agree_rustCast _ _ _, agree_rustCast _ _ _,
   agree_rustCast _ _ _, agree_rustCast _ _ _, agree_rustCast _ _ _, agree_rustCast _ _ _⟩

/-! ### Output bounds (spec §8, "no crash on any input") -/

theorem wrapU_le_uMax (w : Nat) (v : Int) : 0 ≤ wrapU w v ∧ wrapU w v ≤ uMax w := by
  have h := wrapU_bounds w v
  rw [uMax]
  omega

theorem bounds_rustCast (lo hi : Int) (h1 : lo ≤ 0) (h2 : 0 ≤ hi) :
    OutBounds (fun float => rustCast lo hi float) lo hi := by
  intro float
  cases float with
  | nan => exact ⟨h1, h2⟩
  | inf s =>
    cases s
    · exact ⟨le_trans h1 h2, le_refl hi⟩
    · exact ⟨le_refl lo, le_trans h1 h2⟩
  | finite s m e =>
    show lo ≤ max lo (min hi (Fp.finite s m e).truncInt) ∧
      max lo (min hi (Fp.finite s m e).truncInt) ≤ hi
    omega

/-- All 20 conversions of the `x86_64+sse` backend return a value of the
output type (no trap, no invalid value), on every input. -/
theorem x86_64_sse_out_bounds :
    OutBounds target_x86_64_sse.implementation.f32_to_i8 (iMin 8) (iMax 8) ∧
    OutBounds target_x86_64_sse.implementation.f32_to_u8 0 (uMax 8) ∧
    OutBounds target_x86_64_sse.implementation.f32_to_i16 (iMin 16) (iMax 16) ∧
    OutBounds target_x86_64_sse.implementation.f32_to_u16 0 (uMax 16) ∧
    OutBounds target_x86_64_sse.implementation.f32_to_i32 (iMin 32) (iMax 32) ∧
    OutBounds target_x86_64_sse.implementation.f32_to_u32 0 (uMax 32) ∧
    OutBounds target_x86_64_sse.implementation.f32_to_i64 (iMin 64) (iMax 64) ∧
    OutBounds target_x86_64_sse.implementation.f32_to_u64 0 (uMax 64) ∧
    OutBounds target_x86_64_sse.implementation.f32_to_i128 (iMin 128) (iMax 128) ∧
    OutBounds target_x86_64_sse.implementation.f32_to_u128 0 (uMax 128) ∧
    OutBounds target_x86_64_sse.implementation.f64_to_i8 (iMin 8) (iMax 8) ∧
    OutBounds target_x86_64_sse.implementation.f64_to_u8 0 (uMax 8) ∧
    OutBounds target_x86_64_sse.implementation.f64_to_i16 (iMin 16) (iMax 16) ∧
    OutBounds target_x86_64_sse.implementation.f64_to_u16 0 (uMax 16) ∧
    OutBounds target_x86_64_sse.implementation.f64_to_i32 (iMin 32) (iMax 32) ∧
    OutBounds target_x86_64_sse.implementation.f64_to_u32 0 (uMax 32) ∧
    OutBounds target_x86_64_sse.implementation.f64_to_i64 (iMin 64) (iMax 64) ∧
    OutBounds target_x86_64_sse.implementation.f64_to_u64 0 (uMax 64) ∧
    OutBounds target_x86_64_sse.implementation.f64_to_i128 (iMin 128) (iMax 128) ∧
    OutBounds target_x86_64_sse.implementation.f64_to_u128 0 (uMax 128) := by
  refine ⟨?_, ?_, ?_, ?_, ?_, ?_, ?_, ?_, ?_, ?_, ?_, ?_, ?_, ?_, ?_, ?_, ?_, ?_, ?_, ?_⟩
  · exact fun float => wrapS_bounds 8 _ (by norm_num)
  · exact fun float => wrapU_le_uMax 8 _
  · exact fun float => wrapS_bounds 16 _ (by norm_num)
  · exact fun float => wrapU_le_uMax 16 _
  · exact fun float => wrapS_bounds 32 _ (by norm_num)
  · exact fun float => wrapU_le_uMax 32 _
  · exact fun float => cvtt_bounds 64 float (by norm_num)
  · exact fun float => wrapU_le_uMax 64 _
  · exact bounds_rustCast _ _ (by decide) (by decide)
  · exact bounds_rustCast _ _ (by decide) (by decide)
  · exact fun float => wrapS_bounds 8 _ (by norm_num)
  · exact fun float => wrapU_le_uMax 8 _
  · exact fun float => wrapS_bounds 16 _ (by norm_num)
  · exact fun float => wrapU_le_uMax 16 _
  · exact fun float => wrapS_bounds 32 _ (by norm_num)
  · exact fun float => wrapU_le_uMax 32 _
  · exact fun float => cvtt_bounds 64 float (by norm_num)
  · exact fun float => wrapU_le_uMax 64 _
  · exact bounds_rustCast _ _ (by decide) (by decide)
  · exact bounds_rustCast _ _ (by decide) (by decide)

/-- All 20 conversions of the `x86+sse` backend return a value of the output
type, on every input. -/
theorem x86_sse_out_bounds :
    OutBounds target_x86_sse.implementation.f32_to_i8 (iMin 8) (iMax 8) ∧
    OutBounds target_x86_sse.implementation.f32_to_u8 0 (uMax 8) ∧
    OutBounds target_x86_sse.implementation.f32_to_i16 (iMin 16) (iMax 16) ∧
    OutBounds target_x86_sse.implementation.f32_to_u16 0 (uMax 16) ∧
    OutBounds target_x86_sse.implementation.f32_to_i32 (iMin 32) (iMax 32) ∧
    OutBounds target_x86_sse.implementation.f32_to_u32 0 (uMax 32) ∧
    OutBounds target_x86_sse.implementation.f32_to_i64 (iMin 64) (iMax 64) ∧
    OutBounds target_x86_sse.implementation.f32_to_u64 0 (uMax 64) ∧
    OutBounds target_x86_sse.implementation.f32_to_i128 (iMin 128) (iMax 128) ∧
    OutBounds target_x86_sse.implementation.f32_to_u128 0 (uMax 128) ∧
    OutBounds target_x86_sse.implementation.f64_to_i8 (iMin 8) (iMax 8) ∧
    OutBounds target_x86_sse.implementation.f64_to_u8 0 (uMax 8) ∧
    OutBounds target_x86_sse.implementation.f64_to_i16 (iMin 16) (iMax 16) ∧
    OutBounds target_x86_sse.implementation.f64_to_u16 0 (uMax 16) ∧
    OutBounds target_x86_sse.implementation.f64_to_i32 (iMin 32) (iMax 32) ∧
    OutBounds target_x86_sse.implementation.f64_to_u32 0 (uMax 32) ∧
    OutBounds target_x86_sse.implementation.f64_to_i64 (iMin 64) (iMax 64) ∧
    OutBounds target_x86_sse.implementation.f64_to_u64 0 (uMax 64) ∧
    OutBounds target_x86_sse.implementation.f64_to_i128 (iMin 128) (iMax 128) ∧
    OutBounds target_x86_sse.implementation.f64_to_u128 0 (uMax 128) := by
  refine ⟨?_, ?_, ?_, ?_, ?_, ?_, ?_, ?_, ?_, ?_, ?_, ?_, ?_, ?_, ?_, ?_, ?_, ?_, ?_, ?_⟩
  · exact fun float => wrapS_bounds 8 _ (by norm_num)
  · exact fun float => wrapU_le_uMax 8 _
  · exact fun float => wrapS_bounds 16 _ (by norm_num)
  · exact fun float => wrapU_le_uMax 16 _
  · exact fun float => cvtt_bounds 32 float (by norm_num)
  · exact fun float => wrapU_le_uMax 32 _
  · exact bounds_rustCast _ _ (by decide) (by decide)
  · exact bounds_rustCast _ _ (by decide) (by decide)
  · exact bounds_rustCast _ _ (by decide) (by decide)
  · exact bounds_rustCast _ _ (by decide) (by decide)
  · exact fun float => wrapS_bounds 8 _ (by norm_num)
  · exact fun float => wrapU_le_uMax 8 _
  · exact fun float => wrapS_bounds 16 _ (by norm_num)
  · exact fun float => wrapU_le_uMax 16 _
  · exact fun float => cvtt_bounds 32 float (by norm_num)
  · exact fun float => wrapU_le_uMax 32 _
  · exact bounds_rustCast _ _ (by decide) (by decide)
  · exact bounds_rustCast _ _ (by decide) (by decide)
  · exact bounds_rustCast _ _ (by decide) (by decide)
  · exact bounds_rustCast _ _ (by decide) (by decide)

/-- All 20 conversions of the fallback backend return a value of the output
type, on every input. -/
theorem default_out_bounds :
    OutBounds target_default.implementation.f32_to_i8 (iMin 8) (iMax 8) ∧
    OutBounds target_default.implementation.f32_to_u8 0 (uMax 8) ∧
    OutBounds target_default.implementation.f32_to_i16 (iMin 16) (iMax 16) ∧
    OutBounds target_default.implementation.f32_to_u16 0 (uMax 16) ∧
    OutBounds target_default.implementation.f32_to_i32 (iMin 32) (iMax 32) ∧
    OutBounds target_default.implementation.f32_to_u32 0 (uMax 32) ∧
    OutBounds target_default.implementation.f32_to_i64 (iMin 64) (iMax 64) ∧
    OutBounds target_default.implementation.f32_to_u64 0 (uMax 64) ∧
    OutBounds target_default.implementation.f32_to_i128 (iMin 128) (iMax 128) ∧
    OutBounds target_default.implementation.f32_to_u128 0 (uMax 128) ∧
    OutBounds target_default.implementation.f64_to_i8 (iMin 8) (iMax 8) ∧
    OutBounds target_default.implementation.f64_to_u8 0 (uMax 8) ∧
    OutBounds target_default.implementation.f64_to_i16 (iMin 16) (iMax 16) ∧
    OutBounds target_default.implementation.f64_to_u16 0 (uMax 16) ∧
    OutBounds target_default.implementation.f64_to_i32 (iMin 32) (iMax 32) ∧
    OutBounds target_default.implementation.f64_to_u32 0 (uMax 32) ∧
    OutBounds target_default.implementation.f64_to_i64 (iMin 64) (iMax 64) ∧
    OutBounds target_default.implementation.f64_to_u64 0 (uMax 64) ∧
    OutBounds target_default.implementation.f64_to_i128 (iMin 128) (iMax 128) ∧
    OutBounds target_default.implementation.f64_to_u128 0 (uMax 128) := by
  refine ⟨?_, ?_, ?_, ?_, ?_, ?_, ?_, ?_, ?_, ?_, ?_, ?_, ?_, ?_, ?_, ?_, ?_, ?_, ?_, ?_⟩ <;>
    exact bounds_rustCast _ _ (by decide) (by decide)

/-- Arithmetic right shift by `w-1` of any negative `w`-bit value is all one
bits. -/
theorem sar_neg (w : Nat) (a : Int) (hw : 1 ≤ w) (h0 : iMin w ≤ a) (h1 : a < 0) :
    too_large_mask w a = -1 := by
  have hpn2 : ((2^(w-1) : Nat) : Int) = (2:Int)^(w-1) := two_pow_cast _
  rw [iMin] at h0
  have hk : a = Int.negSucc (-(a+1)).toNat := by
    rw [Int.negSucc_eq]
    omega
  rw [hk]
  show Int.negSucc ((-(a+1)).toNat >>> (w-1)) = -1
  rw [Nat.shiftRight_eq_div_pow, Nat.div_eq_of_lt (by omega)]
  rfl

theorem rustCast_eq_spec (lo hi : Int) (h : lo ≤ hi) (float : Fp) :
    rustCast lo hi float = spec_saturating_cast lo hi float := by
  cases float with
  | nan => rfl
  | inf s =>
    cases s <;> simp [rustCast, spec_saturating_cast]
  | finite s m e =>
    show max lo (min hi (Fp.finite s m e).truncInt) = _
    rw [spec_saturating_cast]
    rw [if_neg (by simp), if_neg (by simp), if_neg (by simp)]
    split
    · omega
    · split
      · omega
      · omega

/-! ### The claims -/

/-- C1: for every one of the 20 public conversion functions (under every
backend the compile-time dispatch of `lib.rs` can select) and for every valid
float input that is in range for the destination type (its truncation toward
zero lies in `[MIN, MAX]` of the type), the function returns a value equal to
the standard truncating/saturating cast `f as T`. -/
theorem C1_range_agreement (t : Target) :
    RangeAgree fmt32 (fast_float_to_integer.f32_to_i8 t) (iMin 8) (iMax 8) ∧
    RangeAgree fmt32 (fast_float_to_integer.f32_to_u8 t) 0 (uMax 8) ∧
    RangeAgree fmt32 (fast_float_to_integer.f32_to_i16 t) (iMin 16) (iMax 16) ∧
    RangeAgree fmt32 (fast_float_to_integer.f32_to_u16 t) 0 (uMax 16) ∧
    RangeAgree fmt32 (fast_float_to_integer.f32_to_i32 t) (iMin 32) (iMax 32) ∧
    RangeAgree fmt32 (fast_float_to_integer.f32_to_u32 t) 0 (uMax 32) ∧
    RangeAgree fmt32 (fast_float_to_integer.f32_to_i64 t) (iMin 64) (iMax 64) ∧
    RangeAgree fmt32 (fast_float_to_integer.f32_to_u64 t) 0 (uMax 64) ∧
    RangeAgree fmt32 (fast_float_to_integer.f32_to_i128 t) (iMin 128) (iMax 128) ∧
    RangeAgree fmt32 (fast_float_to_integer.f32_to_u128 t) 0 (uMax 128) ∧
    RangeAgree fmt64 (fast_float_to_integer.f64_to_i8 t) (iMin 8) (iMax 8) ∧
    RangeAgree fmt64 (fast_float_to_integer.f64_to_u8 t) 0 (uMax 8) ∧
    RangeAgree fmt64 (fast_float_to_integer.f64_to_i16 t) (iMin 16) (iMax 16) ∧
    RangeAgree fmt64 (fast_float_to_integer.f64_to_u16 t) 0 (uMax 16) ∧
    RangeAgree fmt64 (fast_float_to_integer.f64_to_i32 t) (iMin 32) (iMax 32) ∧
    RangeAgree fmt64 (fast_float_to_integer.f64_to_u32 t) 0 (uMax 32) ∧
    RangeAgree fmt64 (fast_float_to_integer.f64_to_i64 t) (iMin 64) (iMax 64) ∧
    RangeAgree fmt64 (fast_float_to_integer.f64_to_u64 t) 0 (uMax 64) ∧
    RangeAgree fmt64 (fast_float_to_integer.f64_to_i128 t) (iMin 128) (iMax 128) ∧
    RangeAgree fmt64 (fast_float_to_integer.f64_to_u128 t) 0 (uMax 128) := by
  cases t with
  | target_x86_64_sse => exact x86_64_sse_range_agreement
  | target_x86_sse => exact x86_sse_range_agreement
  | target_default => exact default_range_agreement

/-- Witness for C1 at concrete inputs: the f32 value `100.5 = 201 * 2^-1`
converts to `i8` as `100`, and the f64 value `2^63 + 2^11` converts to `u64`
exactly, on the `x86_64+sse` backend. -/
theorem C1_range_agreement_witness :
    fast_float_to_integer.f32_to_i8 Target.target_x86_64_sse (Fp.finite false 201 (-1)) = 100 ∧
    fast_float_to_integer.f64_to_u64 Target.target_x86_64_sse
      (Fp.finite false (2^52 + 1) 11) = 2^63 + 2^11 := by
  constructor
  · have h := (C1_range_agreement Target.target_x86_64_sse).1
      (Fp.finite false 201 (-1)) (by decide) (by decide)
    rw [h]
    decide
  · have h :=
      (C1_range_agreement Target.target_x86_64_sse).2.2.2.2.2.2.2.2.2.2.2.2.2.2.2.2.2.1
      (Fp.finite false (2^52 + 1) 11) (by decide) (by decide)
    rw [h]
    decide

/-- C2: the branchless unsigned extension (`f32_to_u64_branchless` and
`f64_to_u64`) computes `signed1 = truncate(float)`,
`signed2 = truncate(float - 2^63)`, `mask = signed1 >> 63` (arithmetic
shift), and returns `(signed1 | (signed2 & mask))` reinterpreted as unsigned;
for every valid input whose truncation toward zero lies in `[0, 2^64)` the
result is that truncation, and for every input whatsoever the result is a
valid `u64` value. -/
theorem C2_branchless_unsigned (float32 float64 : Fp)
    (hv32 : float32.valid fmt32 = true) (hv64 : float64.valid fmt64 = true) :
    (target_x86_64_sse.f32_to_u64_branchless float32 =
      wrapU 64 (bor 64 (target_x86_64_sse.f32_to_i64 float32)
        (band 64 (target_x86_64_sse.f32_to_i64
            (Fp.fsub fmt32 float32 (power_of_two_f32 63)))
          (too_large_mask 64 (target_x86_64_sse.f32_to_i64 float32))))) ∧
    (float32.isFinite = true → 0 ≤ float32.truncInt → float32.truncInt < 2^64 →
      target_x86_64_sse.f32_to_u64_branchless float32 = float32.truncInt) ∧
    (0 ≤ target_x86_64_sse.f32_to_u64_branchless float32 ∧
      target_x86_64_sse.f32_to_u64_branchless float32 ≤ uMax 64) ∧
    (target_x86_64_sse.f64_to_u64 float64 =
      wrapU 64 (bor 64 (target_x86_64_sse.f64_to_i64 float64)
        (band 64 (target_x86_64_sse.f64_to_i64
            (Fp.fsub fmt64 float64 (power_of_two_f64 63)))
          (too_large_mask 64 (target_x86_64_sse.f64_to_i64 float64))))) ∧
    (float64.isFinite = true → 0 ≤ float64.truncInt → float64.truncInt < 2^64 →
      target_x86_64_sse.f64_to_u64 float64 = float64.truncInt) ∧
    (0 ≤ target_x86_64_sse.f64_to_u64 float64 ∧
      target_x86_64_sse.f64_to_u64 float64 ≤ uMax 64) := by
  refine ⟨rfl, ?_, ?_, rfl, ?_, ?_⟩
  · exact fun hfin h0 hlt => f32_to_u64_branchless_inRange float32 hv32 hfin h0 hlt
  · exact wrapU_le_uMax 64 _
  · exact fun hfin h0 hlt => f64_to_u64_inRange float64 hv64 hfin h0 hlt
  · exact wrapU_le_uMax 64 _

/-- Witness for C2 at concrete inputs: the f32 value `2^63 + 2^40` (in the
overflow-correction window) and the f64 value `-0.5` (whose truncation is
`0`). -/
theorem C2_branchless_unsigned_witness :
    target_x86_64_sse.f32_to_u64_branchless (Fp.finite false (2^23 + 1) 40) = 2^63 + 2^40 ∧
    target_x86_64_sse.f64_to_u64 (Fp.finite true 1 (-1)) = 0 := by
  constructor
  · have h := (C2_branchless_unsigned (Fp.finite false (2^23 + 1) 40) Fp.nan
      (by decide) (by decide)).2.1 (by decide) (by decide) (by decide)
    rw [h]
    decide
  · have h := (C2_branchless_unsigned Fp.nan (Fp.finite true 1 (-1))
      (by decide) (by decide)).2.2.2.2.1 (by decide) (by decide) (by decide)
    rw [h]
    decide

/-- C3: every one of the 20 public conversion functions is total on the
model and returns a value inside the output type's range for every input,
NaN, infinities, zeros and subnormals included; in particular
`f32_to_i64 NaN` is some valid `i64` value. -/
theorem C3_total_no_crash (t : Target) :
    OutBounds (fast_float_to_integer.f32_to_i8 t) (iMin 8) (iMax 8) ∧
    OutBounds (fast_float_to_integer.f32_to_u8 t) 0 (uMax 8) ∧
    OutBounds (fast_float_to_integer.f32_to_i16 t) (iMin 16) (iMax 16) ∧
    OutBounds (fast_float_to_integer.f32_to_u16 t) 0 (uMax 16) ∧
    OutBounds (fast_float_to_integer.f32_to_i32 t) (iMin 32) (iMax 32) ∧
    OutBounds (fast_float_to_integer.f32_to_u32 t) 0 (uMax 32) ∧
    OutBounds (fast_float_to_integer.f32_to_i64 t) (iMin 64) (iMax 64) ∧
    OutBounds (fast_float_to_integer.f32_to_u64 t) 0 (uMax 64) ∧
    OutBounds (fast_float_to_integer.f32_to_i128 t) (iMin 128) (iMax 128) ∧
    OutBounds (fast_float_to_integer.f32_to_u128 t) 0 (uMax 128) ∧
    OutBounds (fast_float_to_integer.f64_to_i8 t) (iMin 8) (iMax 8) ∧
    OutBounds (fast_float_to_integer.f64_to_u8 t) 0 (uMax 8) ∧
    OutBounds (fast_float_to_integer.f64_to_i16 t) (iMin 16) (iMax 16) ∧
    OutBounds (fast_float_to_integer.f64_to_u16 t) 0 (uMax 16) ∧
    OutBounds (fast_float_to_integer.f64_to_i32 t) (iMin 32) (iMax 32) ∧
    OutBounds (fast_float_to_integer.f64_to_u32 t) 0 (uMax 32) ∧
    OutBounds (fast_float_to_integer.f64_to_i64 t) (iMin 64) (iMax 64) ∧
    OutBounds (fast_float_to_integer.f64_to_u64 t) 0 (uMax 64) ∧
    OutBounds (fast_float_to_integer.f64_to_i128 t) (iMin 128) (iMax 128) ∧
    OutBounds (fast_float_to_integer.f64_to_u128 t) 0 (uMax 128) ∧
    (∃ v : Int, fast_float_to_integer.f32_to_i64 t Fp.nan = v ∧
      iMin 64 ≤ v ∧ v ≤ iMax 64) := by
  have hb : OutBounds (fast_float_to_integer.f32_to_i8 t) (iMin 8) (iMax 8) ∧
      OutBounds (fast_float_to_integer.f32_to_u8 t) 0 (uMax 8) ∧
      OutBounds (fast_float_to_integer.f32_to_i16 t) (iMin 16) (iMax 16) ∧
      OutBounds (fast_float_to_integer.f32_to_u16 t) 0 (uMax 16) ∧
      OutBounds (fast_float_to_integer.f32_to_i32 t) (iMin 32) (iMax 32) ∧
      OutBounds (fast_float_to_integer.f32_to_u32 t) 0 (uMax 32) ∧
      OutBounds (fast_float_to_integer.f32_to_i64 t) (iMin 64) (iMax 64) ∧
      OutBounds (fast_float_to_integer.f32_to_u64 t) 0 (uMax 64) ∧
      OutBounds (fast_float_to_integer.f32_to_i128 t) (iMin 128) (iMax 128) ∧
      OutBounds (fast_float_to_integer.f32_to_u128 t) 0 (uMax 128) ∧
      OutBounds (fast_float_to_integer.f64_to_i8 t) (iMin 8) (iMax 8) ∧
      OutBounds (fast_float_to_integer.f64_to_u8 t) 0 (uMax 8) ∧
      OutBounds (fast_float_to_integer.f64_to_i16 t) (iMin 16) (iMax 16) ∧
      OutBounds (fast_float_to_integer.f64_to_u16 t) 0 (uMax 16) ∧
      OutBounds (fast_float_to_integer.f64_to_i32 t) (iMin 32) (iMax 32) ∧
      OutBounds (fast_float_to_integer.f64_to_u32 t) 0 (uMax 32) ∧
      OutBounds (fast_float_to_integer.f64_to_i64 t) (iMin 64) (iMax 64) ∧
      OutBounds (fast_float_to_integer.f64_to_u64 t) 0 (uMax 64) ∧
      OutBounds (fast_float_to_integer.f64_to_i128 t) (iMin 128) (iMax 128) ∧
      OutBounds (fast_float_to_integer.f64_to_u128 t) 0 (uMax 128) := by
    cases t with
    | target_x86_64_sse => exact x86_64_sse_out_bounds
    | target_x86_sse => exact x86_sse_out_bounds
    | target_default => exact default_out_bounds
  obtain ⟨h1, h2, h3, h4, h5, h6, h7, hrest⟩ := hb
  exact ⟨h1, h2, h3, h4, h5, h6, h7, hrest.1, hrest.2.1, hrest.2.2.1, hrest.2.2.2.1,
    hrest.2.2.2.2.1, hrest.2.2.2.2.2.1, hrest.2.2.2.2.2.2.1, hrest.2.2.2.2.2.2.2.1,
    hrest.2.2.2.2.2.2.2.2.1, hrest.2.2.2.2.2.2.2.2.2.1, hrest.2.2.2.2.2.2.2.2.2.2.1,
    hrest.2.2.2.2.2.2.2.2.2.2.2.1, hrest.2.2.2.2.2.2.2.2.2.2.2.2,
    fast_float_to_integer.f32_to_i64 t Fp.nan, rfl, h7 Fp.nan⟩

/-- C4: the branchless implementation and the branching reference
implementation of the f32 to u64 conversion return the same value on every
valid in-range input (truncation in `[0, 2^64)`). -/
theorem C4_branchful_branchless_equiv (float : Fp) (hv : float.valid fmt32 = true)
    (hfin : float.isFinite = true) (h0 : 0 ≤ float.truncInt)
    (hlt : float.truncInt < 2^64) :
    target_x86_64_sse._f32_to_u64_branchful float =
      target_x86_64_sse.f32_to_u64_branchless float := by
  rw [f32_to_u64_branchful_inRange float hv hfin h0 hlt,
    f32_to_u64_branchless_inRange float hv hfin h0 hlt]

/-- Witness for C4 at the f32 value `2^63 + 2^40`, which exercises the
overflow-correction path of both implementations. -/
theorem C4_branchful_branchless_equiv_witness :
    target_x86_64_sse._f32_to_u64_branchful (Fp.finite false (2^23 + 1) 40) =
      target_x86_64_sse.f32_to_u64_branchless (Fp.finite false (2^23 + 1) 40) :=
  C4_branchful_branchless_equiv (Fp.finite false (2^23 + 1) 40)
    (by decide) (by decide) (by decide) (by decide)

/-- C5: every conversion function of the fallback backend equals the
standard saturating cast (as the spec words it: clamp to the type's minimum
or maximum, NaN to zero) on every input, out-of-range, NaN and infinities
included. -/
theorem C5_default_saturating (float32 float64 : Fp) :
    target_default.implementation.f32_to_i8 float32 = spec_saturating_cast (iMin 8) (iMax 8) float32 ∧
    target_default.implementation.f32_to_u8 float32 = spec_saturating_cast 0 (uMax 8) float32 ∧
    target_default.implementation.f32_to_i16 float32 = spec_saturating_cast (iMin 16) (iMax 16) float32 ∧
    target_default.implementation.f32_to_u16 float32 = spec_saturating_cast 0 (uMax 16) float32 ∧
    target_default.implementation.f32_to_i32 float32 = spec_saturating_cast (iMin 32) (iMax 32) float32 ∧
    target_default.implementation.f32_to_u32 float32 = spec_saturating_cast 0 (uMax 32) float32 ∧
    target_default.implementation.f32_to_i64 float32 = spec_saturating_cast (iMin 64) (iMax 64) float32 ∧
    target_default.implementation.f32_to_u64 float32 = spec_saturating_cast 0 (uMax 64) float32 ∧
    target_default.implementation.f32_to_i128 float32 = spec_saturating_cast (iMin 128) (iMax 128) float32 ∧
    target_default.implementation.f32_to_u128 float32 = spec_saturating_cast 0 (uMax 128) float32 ∧
    target_default.implementation.f64_to_i8 float64 = spec_saturating_cast (iMin 8) (iMax 8) float64 ∧
    target_default.implementation.f64_to_u8 float64 = spec_saturating_cast 0 (uMax 8) float64 ∧
    target_default.implementation.f64_to_i16 float64 = spec_saturating_cast (iMin 16) (iMax 16) float64 ∧
    target_default.implementation.f64_to_u16 float64 = spec_saturating_cast 0 (uMax 16) float64 ∧
    target_default.implementation.f64_to_i32 float64 = spec_saturating_cast (iMin 32) (iMax 32) float64 ∧
    target_default.implementation.f64_to_u32 float64 = spec_saturating_cast 0 (uMax 32) float64 ∧
    target_default.implementation.f64_to_i64 float64 = spec_saturating_cast (iMin 64) (iMax 64) float64 ∧
    target_default.implementation.f64_to_u64 float64 = spec_saturating_cast 0 (uMax 64) float64 ∧
    target_default.implementation.f64_to_i128 float64 = spec_saturating_cast (iMin 128) (iMax 128) float64 ∧
    target_default.implementation.f64_to_u128 float64 = spec_saturating_cast 0 (uMax 128) float64 :=
  ⟨rustCast_eq_spec _ _ (by decide) _, rustCast_eq_spec _ _ (by decide) _,
   rustCast_eq_spec _ _ (by decide) _, rustCast_eq_spec _ _ (by decide) _,
   rustCast_eq_spec _ _ (by decide) _, rustCast_eq_spec _ _ (by decide) _,
   rustCast_eq_spec _ _ (by decide) _, rustCast_eq_spec _ _ (by decide) _,
   rustCast_eq_spec _ _ (by decide) _, rustCast_eq_spec _ _ (by decide) _,
   rustCast_eq_spec _ _ (by decide) _, rustCast_eq_spec _ _ (by decide) _,
   rustCast_eq_spec _ _ (by decide) _, rustCast_eq_spec _ _ (by decide) _,
   rustCast_eq_spec _ _ (by decide) _, rustCast_eq_spec _ _ (by decide) _,
   rustCast_eq_spec _ _ (by decide) _, rustCast_eq_spec _ _ (by decide) _,
   rustCast_eq_spec _ _ (by decide) _, rustCast_eq_spec _ _ (by decide) _⟩

/-- C6 counterexample: `2.0_f64.powi(63) + 100.0` is not `2^63 + 100` — the
sum rounds to exactly `2^63` (the spacing of f64 values at that magnitude is
`2^11 = 2048`), so `f64_to_u64` on that input does not return
`2u64.pow(63) + 100`. -/
theorem C6_counterexample :
    target_x86_64_sse.implementation.f64_to_u64
      (Fp.fadd fmt64 (ofIntF fmt64 ((2:Int)^63)) (ofIntF fmt64 100)) ≠ 2^63 + 100 := by
  decide

/-- C6 amended: the f64 expression `2.0_f64.powi(63) + 100.0` evaluates to
exactly `2^63` (since `2^63 + 100` is not representable in f64 and rounds
down), and `f64_to_u64` applied to it returns exactly `2^63` — which does
exercise the branchless overflow-correction path, as the raw signed
truncation of the input is the sentinel `i64::MIN`. -/
theorem C6_overflow_correction_scenario :
    Fp.fadd fmt64 (ofIntF fmt64 ((2:Int)^63)) (ofIntF fmt64 100) =
      ofIntF fmt64 ((2:Int)^63) ∧
    target_x86_64_sse.implementation.f64_to_u64
      (Fp.fadd fmt64 (ofIntF fmt64 ((2:Int)^63)) (ofIntF fmt64 100)) = 2^63 ∧
    target_x86_64_sse.f64_to_i64
      (Fp.fadd fmt64 (ofIntF fmt64 ((2:Int)^63)) (ofIntF fmt64 100)) = iMin 64 := by
  refine ⟨?_, ?_, ?_⟩ <;> decide

/-- C7 counterexample: the input `-1.0f32` truncates to `signed1 = -1`, which
is not the out-of-range sentinel `i64::MIN`, yet
`too_large_mask = signed1 >> 63` is all one bits rather than all zero
bits. -/
theorem C7_counterexample :
    target_x86_64_sse.f32_to_i64 (Fp.finite true 1 0) = -1 ∧
    target_x86_64_sse.f32_to_i64 (Fp.finite true 1 0) ≠ iMin 64 ∧
    too_large_mask 64 (target_x86_64_sse.f32_to_i64 (Fp.finite true 1 0)) = -1 := by
  refine ⟨?_, ?_, ?_⟩ <;> decide

/-- C7 amended: `too_large_mask w signed1 = signed1 >> (w-1)` (arithmetic
shift) is all one bits for every negative `signed1` — the sentinel included —
and all zero bits for every nonnegative `signed1`, at both widths the
branchless algorithm uses. -/
theorem C7_mask_amended (signed1 : Int) :
    (iMin 64 ≤ signed1 → signed1 ≤ iMax 64 →
      too_large_mask 64 signed1 = if signed1 < 0 then -1 else 0) ∧
    (iMin 32 ≤ signed1 → signed1 ≤ iMax 32 →
      too_large_mask 32 signed1 = if signed1 < 0 then -1 else 0) := by
  constructor
  · intro h1 h2
    by_cases hs : signed1 < 0
    · rw [if_pos hs]
      exact sar_neg 64 signed1 (by norm_num) h1 hs
    · rw [if_neg hs]
      push_neg at hs
      refine sar_small 64 signed1 hs ?_
      rw [iMax] at h2
      omega
  · intro h1 h2
    by_cases hs : signed1 < 0
    · rw [if_pos hs]
      exact sar_neg 32 signed1 (by norm_num) h1 hs
    · rw [if_neg hs]
      push_neg at hs
      refine sar_small 32 signed1 hs ?_
      rw [iMax] at h2
      omega

/-- Witness for C7 amended, at the sentinel itself. -/
theorem C7_mask_amended_witness : too_large_mask 64 (iMin 64) = -1 := by
  have h := (C7_mask_amended (iMin 64)).1 (le_refl _) (by decide)
  rw [h]
  decide

/-- C8 counterexample: the x86_64 backend computes `f64_to_u16` by
width-truncating the raw signed truncation (4.1) directly, not the branchless
unsigned extension's output (4.2).  At the out-of-range input `2^63 + 2048`
the two differ: the backend returns `0` (the truncated sentinel), while the
width-truncation of the unsigned extension's output would be `2048`. -/
theorem C8_counterexample :
    target_x86_64_sse.implementation.f64_to_u16 (Fp.finite false (2^52 + 1) 11) = 0 ∧
    wrapU 16 (target_x86_64_sse.f64_to_u64 (Fp.finite false (2^52 + 1) 11)) = 2048 ∧
    target_x86_64_sse.implementation.f64_to_u16 (Fp.finite false (2^52 + 1) 11) ≠
      wrapU 16 (target_x86_64_sse.f64_to_u64 (Fp.finite false (2^52 + 1) 11)) := by
  refine ⟨?_, ?_, ?_⟩ <;> decide

/-- C8 amended: on the x86_64 backend the narrower unsigned outputs (u8, u16,
u32) are the width-truncation of the raw signed truncation (4.1) directly,
without going through the unsigned extension (4.2); this agrees with the
width-truncation of the branchless unsigned extension's output on every valid
input in range of the narrow output type (while out-of-range inputs may
observe the sentinel, which the public contract leaves unspecified). -/
theorem C8_narrow_unsigned_amended (float32 float64 : Fp)
    (hv32 : float32.valid fmt32 = true) (hv64 : float64.valid fmt64 = true) :
    (target_x86_64_sse.implementation.f32_to_u8 float32 =
      wrapU 8 (target_x86_64_sse.f32_to_i64 float32)) ∧
    (target_x86_64_sse.implementation.f32_to_u16 float32 =
      wrapU 16 (target_x86_64_sse.f32_to_i64 float32)) ∧
    (target_x86_64_sse.implementation.f32_to_u32 float32 =
      wrapU 32 (target_x86_64_sse.f32_to_i64 float32)) ∧
    (target_x86_64_sse.implementation.f64_to_u8 float64 =
      wrapU 8 (target_x86_64_sse.f64_to_i64 float64)) ∧
    (target_x86_64_sse.implementation.f64_to_u16 float64 =
      wrapU 16 (target_x86_64_sse.f64_to_i64 float64)) ∧
    (target_x86_64_sse.implementation.f64_to_u32 float64 =
      wrapU 32 (target_x86_64_sse.f64_to_i64 float64)) ∧
    (InRange 0 (uMax 8) float32 → target_x86_64_sse.implementation.f32_to_u8 float32 =
      wrapU 8 (target_x86_64_sse.f32_to_u64 float32)) ∧
    (InRange 0 (uMax 16) float32 → target_x86_64_sse.implementation.f32_to_u16 float32 =
      wrapU 16 (target_x86_64_sse.f32_to_u64 float32)) ∧
    (InRange 0 (uMax 32) float32 → target_x86_64_sse.implementation.f32_to_u32 float32 =
      wrapU 32 (target_x86_64_sse.f32_to_u64 float32)) ∧
    (InRange 0 (uMax 8) float64 → target_x86_64_sse.implementation.f64_to_u8 float64 =
      wrapU 8 (target_x86_64_sse.f64_to_u64 float64)) ∧
    (InRange 0 (uMax 16) float64 → target_x86_64_sse.implementation.f64_to_u16 float64 =
      wrapU 16 (target_x86_64_sse.f64_to_u64 float64)) ∧
    (InRange 0 (uMax 32) float64 → target_x86_64_sse.implementation.f64_to_u32 float64 =
      wrapU 32 (target_x86_64_sse.f64_to_u64 float64)) := by
  refine ⟨rfl, rfl, rfl, rfl, rfl, rfl, ?_, ?_, ?_, ?_, ?_, ?_⟩
  all_goals intro h
  all_goals obtain ⟨hfin, h1, h2⟩ := h
  · show wrapU 8 (cvtt 64 float32) = wrapU 8 (target_x86_64_sse.f32_to_u64_branchless float32)
    rw [cvtt_of_inRange 64 float32 hfin (le_trans (by decide) h1) (le_trans h2 (by decide)),
      f32_to_u64_branchless_inRange float32 hv32 hfin h1 (lt_of_le_of_lt h2 (by decide))]
  · show wrapU 16 (cvtt 64 float32) = wrapU 16 (target_x86_64_sse.f32_to_u64_branchless float32)
    rw [cvtt_of_inRange 64 float32 hfin (le_trans (by decide) h1) (le_trans h2 (by decide)),
      f32_to_u64_branchless_inRange float32 hv32 hfin h1 (lt_of_le_of_lt h2 (by decide))]
  · show wrapU 32 (cvtt 64 float32) = wrapU 32 (target_x86_64_sse.f32_to_u64_branchless float32)
    rw [cvtt_of_inRange 64 float32 hfin (le_trans (by decide) h1) (le_trans h2 (by decide)),
      f32_to_u64_branchless_inRange float32 hv32 hfin h1 (lt_of_le_of_lt h2 (by decide))]
  · show wrapU 8 (cvtt 64 float64) = wrapU 8 (target_x86_64_sse.f64_to_u64 float64)
    rw [cvtt_of_inRange 64 float64 hfin (le_trans (by decide) h1) (le_trans h2 (by decide)),
      f64_to_u64_inRange float64 hv64 hfin h1 (lt_of_le_of_lt h2 (by decide))]
  · show wrapU 16 (cvtt 64 float64) = wrapU 16 (target_x86_64_sse.f64_to_u64 float64)
    rw [cvtt_of_inRange 64 float64 hfin (le_trans (by decide) h1) (le_trans h2 (by decide)),
      f64_to_u64_inRange float64 hv64 hfin h1 (lt_of_le_of_lt h2 (by decide))]
  · show wrapU 32 (cvtt 64 float64) = wrapU 32 (target_x86_64_sse.f64_to_u64 float64)
    rw [cvtt_of_inRange 64 float64 hfin (le_trans (by decide) h1) (le_trans h2 (by decide)),
      f64_to_u64_inRange float64 hv64 hfin h1 (lt_of_le_of_lt h2 (by decide))]

/-- Witness for C8 amended at concrete in-range inputs (`200.0f32` for u8 and
`100.5f64` for u16). -/
theorem C8_narrow_unsigned_amended_witness :
    target_x86_64_sse.implementation.f32_to_u8 (Fp.finite false 200 0) =
      wrapU 8 (target_x86_64_sse.f32_to_u64 (Fp.finite false 200 0)) ∧
    target_x86_64_sse.implementation.f64_to_u16 (Fp.finite false 201 (-1)) =
      wrapU 16 (target_x86_64_sse.f64_to_u64 (Fp.finite false 201 (-1))) := by
  constructor
  · exact (C8_narrow_unsigned_amended (Fp.finite false 200 0) Fp.nan
      (by decide) (by decide)).2.2.2.2.2.2.1 (by decide)
  · exact (C8_narrow_unsigned_amended Fp.nan (Fp.finite false 201 (-1))
      (by decide) (by decide)).2.2.2.2.2.2.2.2.2.2.1 (by decide)

/-- C9: the primitive truncate functions of the x86_64 backend return the
exact truncation toward zero whenever it fits `i64`, and exactly `i64::MIN`
for every other input — NaN and both infinities included.  (The CVTTSS2SI /
CVTTSD2SI semantics themselves are modelled from the source's doc comment,
as the `core::arch` intrinsic bodies are not part of the crate.) -/
theorem C9_primitive_truncate (float : Fp) :
    ((float.isFinite = true → iMin 64 ≤ float.truncInt → float.truncInt ≤ iMax 64 →
        target_x86_64_sse.f32_to_i64 float = float.truncInt) ∧
      (float.isFinite = false ∨ float.truncInt < iMin 64 ∨ iMax 64 < float.truncInt →
        target_x86_64_sse.f32_to_i64 float = iMin 64)) ∧
    ((float.isFinite = true → iMin 64 ≤ float.truncInt → float.truncInt ≤ iMax 64 →
        target_x86_64_sse.f64_to_i64 float = float.truncInt) ∧
      (float.isFinite = false ∨ float.truncInt < iMin 64 ∨ iMax 64 < float.truncInt →
        target_x86_64_sse.f64_to_i64 float = iMin 64)) := by
  have hcase : (float.isFinite = false ∨ float.truncInt < iMin 64 ∨ iMax 64 < float.truncInt) →
      cvtt 64 float = iMin 64 := by
    intro h
    rcases h with h | h | h
    · exact cvtt_not_finite 64 float h
    · exact cvtt_of_lt 64 float h
    · exact cvtt_of_gt 64 float h
  exact ⟨⟨fun hfin h1 h2 => cvtt_of_inRange 64 float hfin h1 h2, hcase⟩,
    ⟨fun hfin h1 h2 => cvtt_of_inRange 64 float hfin h1 h2, hcase⟩⟩

/-- Witness for C9 at NaN and at an in-range input. -/
theorem C9_primitive_truncate_witness :
    target_x86_64_sse.f32_to_i64 Fp.nan = iMin 64 ∧
    target_x86_64_sse.f64_to_i64 (Fp.finite true 201 (-1)) = -100 := by
  constructor
  · exact (C9_primitive_truncate Fp.nan).1.2 (Or.inl rfl)
  · have h := (C9_primitive_truncate (Fp.finite true 201 (-1))).2.1
      (by decide) (by decide) (by decide)
    rw [h]
    decide

/-- C10: in the specialized backends, every conversion to an integer type
wider than the backend's hardware width (i128/u128 on x86_64; i64/u64 and
i128/u128 on x86) is the standard `as` cast, and therefore saturates exactly
like the standard cast (as the spec words it: clamp to the type's minimum or
maximum, NaN to zero) on every input, out-of-range values, NaN and
infinities included. -/
theorem C10_wide_casts_saturate (float32 float64 : Fp) :
    target_x86_64_sse.implementation.f32_to_i128 float32 =
      spec_saturating_cast (iMin 128) (iMax 128) float32 ∧
    target_x86_64_sse.implementation.f32_to_u128 float32 =
      spec_saturating_cast 0 (uMax 128) float32 ∧
    target_x86_64_sse.implementation.f64_to_i128 float64 =
      spec_saturating_cast (iMin 128) (iMax 128) float64 ∧
    target_x86_64_sse.implementation.f64_to_u128 float64 =
      spec_saturating_cast 0 (uMax 128) float64 ∧
    target_x86_sse.implementation.f32_to_i64 float32 =
      spec_saturating_cast (iMin 64) (iMax 64) float32 ∧
    target_x86_sse.implementation.f32_to_u64 float32 =
      spec_saturating_cast 0 (uMax 64) float32 ∧
    target_x86_sse.implementation.f32_to_i128 float32 =
      spec_saturating_cast (iMin 128) (iMax 128) float32 ∧
    target_x86_sse.implementation.f32_to_u128 float32 =
      spec_saturating_cast 0 (uMax 128) float32 ∧
    target_x86_sse.implementation.f64_to_i64 float64 =
      spec_saturating_cast (iMin 64) (iMax 64) float64 ∧
    target_x86_sse.implementation.f64_to_u64 float64 =
      spec_saturating_cast 0 (uMax 64) float64 ∧
    target_x86_sse.implementation.f64_to_i128 float64 =
      spec_saturating_cast (iMin 128) (iMax 128) float64 ∧
    target_x86_sse.implementation.f64_to_u128 float64 =
      spec_saturating_cast 0 (uMax 128) float64 :=
  ⟨rustCast_eq_spec _ _ (by decide) _, rustCast_eq_spec _ _ (by decide) _,
   rustCast_eq_spec _ _ (by decide) _, rustCast_eq_spec _ _ (by decide) _,
   rustCast_eq_spec _ _ (by decide) _, rustCast_eq_spec _ _ (by decide) _,
   rustCast_eq_spec _ _ (by decide) _, rustCast_eq_spec _ _ (by decide) _,
   rustCast_eq_spec _ _ (by decide) _, rustCast_eq_spec _ _ (by decide) _,
   rustCast_eq_spec _ _ (by decide) _, rustCast_eq_spec _ _ (by decide) _⟩

-- Sanity examples (concrete kernel evaluation of the model).
example : ofIntF fmt32 (2^63) = Fp.finite false (2^23) 40 := by decide
example : ofIntF fmt64 (2^63) = Fp.finite false (2^52) 11 := by decide
example : (Fp.finite true 201 (-1)).truncInt = -100 := by decide
example : cvtt 64 (Fp.finite false (2^23) 40) = iMin 64 := by decide
example : Fp.fadd fmt64 (ofIntF fmt64 (2^63)) (ofIntF fmt64 100) = Fp.finite false (2^52) 11 := by decide
example : target_x86_64_sse.implementation.f32_to_u8 (Fp.finite false 201 (-1)) = 100 := by decide
example : target_x86_64_sse.implementation.f32_to_i8 (Fp.finite true 5 0) = -5 := by decide
example : target_x86_64_sse.f64_to_u64 (Fp.finite false (2^52) 11) = 2^63 := by decide
example : target_x86_64_sse.f64_to_u64 (Fp.finite false (2^52 + 1) 11) = 2^63 + 2^11 := by decide
example : target_x86_64_sse.implementation.f64_to_u16 (Fp.finite false (2^52 + 1) 11) = 0 := by decide
example : target_x86_64_sse.f32_to_u64_branchless (Fp.finite false (2^23 + 1) 40) = 2^63 + 2^40 := by decide
example : target_x86_64_sse._f32_to_u64_branchful (Fp.finite false (2^23 + 1) 40) = 2^63 + 2^40 := by decide
example : target_x86_64_sse.implementation.f32_to_i64 Fp.nan = iMin 64 := by decide
example : target_x86_sse.f32_to_u32 (Fp.finite false (2^23 + 1) 8) = 2^31 + 2^8 := by decide
example : target_x86_sse.f64_to_u32 (Fp.finite false (2^32 + 2*3 + 1) (-1)) = 2^31 + 3 := by decide
example : fast_float_to_integer.f32_to_u8 Target.target_default (Fp.finite false 1201 (-2)) = 255 := by decide
